import Mathlib

/-!
Shallow embedding of the browser-pool microservice
(`services/browser-pool-service-node`): the `BrowserSession` and
`BrowserPool` classes of `browser-pool.js`, the event-broadcast wrappers
installed by `index.js` (`setupEventBroadcasting`), the gRPC control plane
(`grpc-server.js`) and the WebSocket control plane (`websocket-server.js`).

Modelling conventions:
* times are naturals measured in milliseconds (`new Date()` becomes an
  explicit `now : Nat` argument);
* `uuidv4()` id generation becomes a fresh-id counter `nextId` carried in
  the pool state;
* calls across the engine (Playwright) boundary are recorded in a trace
  of `EngineCall`s, and their success or failure is an explicit oracle
  argument (`navOk`, `pageCloseFails`, ...), since the engine is an
  external collaborator;
* a JS `Map` becomes an association list whose keys are unique for every
  reachable state (the `KeysOk` invariant below).
-/

/-- Typed failures thrown by the pool (`throw new Error(...)` sites). -/
inductive PoolError
  | CapacityExceeded
  | NotFound
  | NavigationFailure
deriving DecidableEq, Repr

/-- An error escaping a call into the underlying browser engine. -/
inductive EngineError
  | engineFailure
deriving DecidableEq, Repr

/-- A call made across the engine (Playwright) boundary. -/
inductive EngineCall
  | newPageCall
  | gotoCall (url : String) (timeoutMs : Option Nat)
  | closePageCall (pid : Nat)
  | closeContextCall
  | clickCall (selector : String)
  | fillCall (selector text : String)
deriving DecidableEq, Repr

/-- A WebSocket broadcast emitted by the service (`broadcast(topic, payload)`). -/
inductive Broadcast
  | sessionCreated (sessionId : Nat) (metadata : List (String × String))
  | sessionClosed (sessionId : Nat)
  | pageCreated (sessionId pageId : Nat) (url : Option String)
  | pageClosed (sessionId pageId : Nat)
  | browserAction (action : String) (sessionId pageId : Option Nat)
deriving DecidableEq, Repr

/-- `BrowserSession` from `browser-pool.js`: an isolated browsing context,
its pages and activity bookkeeping.  The Playwright `context` handle is
represented by the id of the engine (browser) that created it. -/
structure BrowserSession where
  sessionId : Nat
  engineId : Nat
  createdAt : Nat
  lastActivity : Nat
  pages : List Nat
  metadata : List (String × String)
deriving DecidableEq, Repr

/-- `BrowserSession.addPage`: registers a freshly created page under a fresh
id and refreshes `lastActivity`. -/
def BrowserSession.addPage (s : BrowserSession) (pid : Nat) (now : Nat) : BrowserSession :=
  { s with pages := s.pages ++ [pid], lastActivity := now }

/-- `BrowserSession.getPage`: page lookup (`this.pages.get(pageId)`),
modelled as membership of the page id. -/
def BrowserSession.hasPage (s : BrowserSession) (pid : Nat) : Bool :=
  s.pages.contains pid

/-- `BrowserSession.removePage`: deletes the page entry and, when one was
actually removed, refreshes `lastActivity`. -/
def BrowserSession.removePage (s : BrowserSession) (pid : Nat) (now : Nat) :
    BrowserSession × Bool :=
  if s.pages.contains pid then
    ({ s with pages := s.pages.erase pid, lastActivity := now }, true)
  else
    (s, false)

/-- `BrowserSession.isExpired`: `(now - lastActivity) / 1000 > timeoutSeconds`,
with times in milliseconds. -/
def BrowserSession.isExpired (s : BrowserSession) (timeoutSeconds : Nat) (now : Nat) : Bool :=
  decide (timeoutSeconds * 1000 < now - s.lastActivity)

/-- `BrowserPool` state: configuration read from `config.js`, the engine
list `browsers`, the session table `activeSessions` (a `Map` in the source)
and the fresh-id counter standing for `uuidv4()`. -/
structure BrowserPool where
  maxBrowsers : Nat
  browserTimeout : Nat
  maxPageLoadTime : Nat
  browsers : List Nat
  activeSessions : List (Nat × BrowserSession)
  nextId : Nat
deriving DecidableEq, Repr

/-- Session-table lookup (`this.activeSessions.get(sessionId)`). -/
def lookupSession (l : List (Nat × BrowserSession)) (sid : Nat) : Option BrowserSession :=
  match l.find? (fun e => e.1 == sid) with
  | some e => some e.2
  | none => none

/-- In-place update of one session entry (mutation of the stored object). -/
def updateSession (l : List (Nat × BrowserSession)) (sid : Nat) (s : BrowserSession) :
    List (Nat × BrowserSession) :=
  l.map (fun e => if e.1 == sid then (e.1, s) else e)

/-- Deletion of a session entry (`this.activeSessions.delete(sessionId)`). -/
def removeSession (l : List (Nat × BrowserSession)) (sid : Nat) :
    List (Nat × BrowserSession) :=
  l.filter (fun e => e.1 != sid)

/-- `BrowserPool.start()` after launching the initial fixed-size engine
set: `maxBrowsers` engines, no sessions. -/
def BrowserPool.start (maxBrowsers browserTimeout maxPageLoadTime : Nat) : BrowserPool :=
  { maxBrowsers := maxBrowsers
    browserTimeout := browserTimeout
    maxPageLoadTime := maxPageLoadTime
    browsers := List.range maxBrowsers
    activeSessions := []
    nextId := maxBrowsers }

structure CreateSessionOut where
  pool : BrowserPool
  result : Except PoolError Nat
deriving Repr

/-- `BrowserPool.createSession(userId, metadata)`: rejects at capacity;
otherwise launches an engine if the list is empty, takes the first engine
in the list, creates a context on it and registers a fresh session. -/
def BrowserPool.createSession (p : BrowserPool) (now : Nat) (userId : Option String)
    (metadata : List (String × String)) : CreateSessionOut :=
  if p.maxBrowsers ≤ p.activeSessions.length then
    { pool := p, result := .error .CapacityExceeded }
  else
    let browsers := if p.browsers.isEmpty then p.browsers ++ [p.nextId] else p.browsers
    let n1 := if p.browsers.isEmpty then p.nextId + 1 else p.nextId
    let engine := browsers.headD 0
    let sid := n1
    let md := metadata ++ (match userId with
      | some u => [("user_id", u)]
      | none => [])
    let s : BrowserSession :=
      { sessionId := sid, engineId := engine, createdAt := now,
        lastActivity := now, pages := [], metadata := md }
    { pool := { p with browsers := browsers
                       nextId := n1 + 1
                       activeSessions := p.activeSessions ++ [(sid, s)] }
      result := .ok sid }

structure GetSessionOut where
  pool : BrowserPool
  session : Option BrowserSession
deriving Repr

/-- `BrowserPool.getSession(sessionId)`: returns the session and refreshes
its `lastActivity`, or `undefined` when absent. -/
def BrowserPool.getSession (p : BrowserPool) (sid : Nat) (now : Nat) : GetSessionOut :=
  match lookupSession p.activeSessions sid with
  | some s =>
      let s1 := { s with lastActivity := now }
      { pool := { p with activeSessions := updateSession p.activeSessions sid s1 }
        session := some s1 }
  | none => { pool := p, session := none }

/-- The per-page loop of `BrowserSession.close`: each `page.close()` is
wrapped in its own try/catch whose handler only logs, so the loop proceeds
identically whether the engine call throws or not. -/
def closePagesLoop (pages : List Nat) (pageCloseFails : Nat → Bool) : List EngineCall :=
  match pages with
  | [] => []
  | pid :: rest =>
      let callResult : Except EngineError Unit :=
        if pageCloseFails pid then .error .engineFailure else .ok ()
      match callResult with
      | .ok _ => EngineCall.closePageCall pid :: closePagesLoop rest pageCloseFails
      | .error _ => EngineCall.closePageCall pid :: closePagesLoop rest pageCloseFails

/-- `BrowserSession.close()`: closes every page (errors logged and
swallowed), clears the page table, then closes the context inside an outer
try/catch whose handler also only logs.  The result is `Except` valued to
record whether any exception escapes to the caller. -/
def BrowserSession.closeRun (s : BrowserSession) (pageCloseFails : Nat → Bool)
    (ctxCloseFails : Bool) : Except EngineError (BrowserSession × List EngineCall) :=
  let calls := closePagesLoop s.pages pageCloseFails
  let s1 := { s with pages := [] }
  let ctxResult : Except EngineError Unit :=
    if ctxCloseFails then .error .engineFailure else .ok ()
  match ctxResult with
  | .ok _ => .ok (s1, calls ++ [EngineCall.closeContextCall])
  | .error _ => .ok (s1, calls ++ [EngineCall.closeContextCall])

structure CloseSessionOut where
  pool : BrowserPool
  result : Except EngineError Bool
  engineCalls : List EngineCall
deriving Repr

/-- `BrowserPool.closeSession(sessionId)`: when the session exists, awaits
`session.close()` and removes the entry, returning `true`; otherwise
returns `false`.  An exception from `session.close()` would propagate
before the deletion (the `.error` branch), but `closeRun` never produces
one. -/
def BrowserPool.closeSession (p : BrowserPool) (sid : Nat) (pageCloseFails : Nat → Bool)
    (ctxCloseFails : Bool) : CloseSessionOut :=
  match lookupSession p.activeSessions sid with
  | some s =>
      match s.closeRun pageCloseFails ctxCloseFails with
      | .ok (_, calls) =>
          { pool := { p with activeSessions := removeSession p.activeSessions sid }
            result := .ok true
            engineCalls := calls }
      | .error e => { pool := p, result := .error e, engineCalls := [] }
  | none => { pool := p, result := .ok false, engineCalls := [] }

structure CreatePageOut where
  pool : BrowserPool
  result : Except PoolError Nat
  engineCalls : List EngineCall
deriving Repr

/-- `BrowserPool.createPage(sessionId, url)`: `NotFound` when the session
is absent; otherwise a new page is created and registered (`addPage`)
first, and only then, when a url was supplied, `page.goto` is issued with
the configured `MAX_PAGE_LOAD_TIME` timeout; a navigation error is
rethrown after the page was registered. -/
def BrowserPool.createPage (p : BrowserPool) (sid : Nat) (url : Option String)
    (now : Nat) (navOk : Bool) : CreatePageOut :=
  let g := p.getSession sid now
  match g.session with
  | none => { pool := g.pool, result := .error .NotFound, engineCalls := [] }
  | some s =>
      let pid := g.pool.nextId
      let s1 := s.addPage pid now
      let p2 := { g.pool with nextId := g.pool.nextId + 1
                              activeSessions := updateSession g.pool.activeSessions sid s1 }
      match url with
      | some u =>
          let calls := [EngineCall.newPageCall,
                        EngineCall.gotoCall u (some (p.maxPageLoadTime * 1000))]
          if navOk then
            { pool := p2, result := .ok pid, engineCalls := calls }
          else
            { pool := p2, result := .error .NavigationFailure, engineCalls := calls }
      | none =>
          { pool := p2, result := .ok pid, engineCalls := [EngineCall.newPageCall] }

structure GetPageOut where
  pool : BrowserPool
  found : Bool
deriving Repr

/-- `BrowserPool.getPage(sessionId, pageId)`: session lookup (which
refreshes `lastActivity`) followed by page lookup. -/
def BrowserPool.getPage (p : BrowserPool) (sid pid : Nat) (now : Nat) : GetPageOut :=
  let g := p.getSession sid now
  match g.session with
  | some s => { pool := g.pool, found := s.hasPage pid }
  | none => { pool := g.pool, found := false }

structure ClosePageOut where
  pool : BrowserPool
  closed : Bool
  engineCalls : List EngineCall
deriving Repr

/-- `BrowserPool.closePage(sessionId, pageId)`: refreshes the session via
`getSession`; when the page exists, `page.close()` is attempted — on
success the page is removed and `true` returned, while an engine error is
caught, the removal skipped and `false` returned. -/
def BrowserPool.closePage (p : BrowserPool) (sid pid : Nat) (now : Nat)
    (pageCloseFails : Bool) : ClosePageOut :=
  let g := p.getSession sid now
  match g.session with
  | some s =>
      if s.hasPage pid then
        if pageCloseFails then
          { pool := g.pool, closed := false, engineCalls := [EngineCall.closePageCall pid] }
        else
          let s1 := (s.removePage pid now).1
          { pool := { g.pool with activeSessions := updateSession g.pool.activeSessions sid s1 }
            closed := true
            engineCalls := [EngineCall.closePageCall pid] }
      else
        { pool := g.pool, closed := false, engineCalls := [] }
  | none => { pool := g.pool, closed := false, engineCalls := [] }

/-- The `browser.on('disconnected')` handler installed by `_launchBrowser`:
it removes the browser from the pool's engine list (indexOf + splice) and
does nothing else. -/
def BrowserPool.onBrowserDisconnected (p : BrowserPool) (b : Nat) : BrowserPool :=
  if p.browsers.contains b then { p with browsers := p.browsers.erase b } else p

/-!
Service layer: `index.js`'s `setupEventBroadcasting` replaces the pool
methods on the instance with wrappers that broadcast a lifecycle event on
the WebSocket server after each successful mutation.  Both control planes
call these wrapped methods.
-/

structure SvcOut (α : Type) where
  pool : BrowserPool
  result : α
  broadcasts : List Broadcast

/-- Wrapped `createSession`: broadcasts `session.created` with the
metadata argument after a successful creation. -/
def svcCreateSession (p : BrowserPool) (now : Nat) (userId : Option String)
    (metadata : List (String × String)) : SvcOut (Except PoolError Nat) :=
  let r := p.createSession now userId metadata
  match r.result with
  | .ok sid => { pool := r.pool, result := .ok sid,
                 broadcasts := [Broadcast.sessionCreated sid metadata] }
  | .error e => { pool := r.pool, result := .error e, broadcasts := [] }

/-- Wrapped `closeSession`: broadcasts `session.closed` when the pool
reported `true`. -/
def svcCloseSession (p : BrowserPool) (sid : Nat) (pageCloseFails : Nat → Bool)
    (ctxCloseFails : Bool) : SvcOut (Except EngineError Bool) :=
  let r := p.closeSession sid pageCloseFails ctxCloseFails
  match r.result with
  | .ok true => { pool := r.pool, result := .ok true,
                  broadcasts := [Broadcast.sessionClosed sid] }
  | .ok false => { pool := r.pool, result := .ok false, broadcasts := [] }
  | .error e => { pool := r.pool, result := .error e, broadcasts := [] }

/-- Wrapped `createPage`: broadcasts `page.created` after success. -/
def svcCreatePage (p : BrowserPool) (sid : Nat) (url : Option String) (now : Nat)
    (navOk : Bool) : SvcOut (Except PoolError Nat) :=
  let r := p.createPage sid url now navOk
  match r.result with
  | .ok pid => { pool := r.pool, result := .ok pid,
                 broadcasts := [Broadcast.pageCreated sid pid url] }
  | .error e => { pool := r.pool, result := .error e, broadcasts := [] }

/-- Wrapped `closePage`: broadcasts `page.closed` when the pool reported
`true`. -/
def svcClosePage (p : BrowserPool) (sid pid : Nat) (now : Nat)
    (pageCloseFails : Bool) : SvcOut Bool :=
  let r := p.closePage sid pid now pageCloseFails
  if r.closed then
    { pool := r.pool, result := true, broadcasts := [Broadcast.pageClosed sid pid] }
  else
    { pool := r.pool, result := false, broadcasts := [] }

/-- The for-loop of `_cleanupExpiredSessions` closing each collected
expired session in order (through the wrapped `closeSession`, which is the
method visible on the instance). -/
def closeSessionsLoop (p : BrowserPool) (ids : List Nat) (acc : List Broadcast)
    (pageCloseFails : Nat → Bool) (ctxCloseFails : Bool) : BrowserPool × List Broadcast :=
  match ids with
  | [] => (p, acc)
  | sid :: rest =>
      let r := svcCloseSession p sid pageCloseFails ctxCloseFails
      closeSessionsLoop r.pool rest (acc ++ r.broadcasts) pageCloseFails ctxCloseFails

/-- `BrowserPool._cleanupExpiredSessions`: collects the sessions whose
idle time strictly exceeds `browserTimeout`, then closes each. -/
def BrowserPool.cleanupExpiredSessions (p : BrowserPool) (now : Nat)
    (pageCloseFails : Nat → Bool) (ctxCloseFails : Bool) : BrowserPool × List Broadcast :=
  let expired := (p.activeSessions.filter
      (fun e => e.2.isExpired p.browserTimeout now)).map Prod.fst
  closeSessionsLoop p expired [] pageCloseFails ctxCloseFails

/-!
Control planes.  A `WsAction` is one of the action verbs accepted by the
WebSocket `browser-action` message (`handleBrowserAction`); each verb also
has a 1:1 counterpart rpc on the gRPC surface.  Engine outcomes
(navigation, click, fill) are oracle booleans.
-/

inductive WsAction
  | createSessionA (userId : Option String) (metadata : List (String × String))
  | createPageA (sessionId : Nat) (url : Option String) (navOk : Bool)
  | navigateA (sessionId pageId : Nat) (url : String) (navOk : Bool)
  | clickA (sessionId pageId : Nat) (selector : String) (clickOk : Bool)
  | typeA (sessionId pageId : Nat) (selector text : String) (fillOk : Bool)

/-- The `action` string of the verb, used as broadcast topic suffix. -/
def wsActionName : WsAction → String
  | .createSessionA .. => "create-session"
  | .createPageA .. => "create-page"
  | .navigateA .. => "navigate"
  | .clickA .. => "click"
  | .typeA .. => "type"

/-- The `sessionId` field destructured from the message payload
(`undefined` for `create-session`). -/
def wsActionSessionId : WsAction → Option Nat
  | .createSessionA .. => none
  | .createPageA sid .. => some sid
  | .navigateA sid .. => some sid
  | .clickA sid .. => some sid
  | .typeA sid .. => some sid

/-- The `pageId` field destructured from the message payload (present only
for the page-targeting verbs). -/
def wsActionPageId : WsAction → Option Nat
  | .createSessionA .. => none
  | .createPageA .. => none
  | .navigateA _ pid .. => some pid
  | .clickA _ pid .. => some pid
  | .typeA _ pid .. => some pid

structure WsActionOut where
  pool : BrowserPool
  success : Bool
  broadcasts : List Broadcast

/-- `BrowserPoolWebSocketServer.handleBrowserAction`: dispatches the verb
onto the (wrapped) pool methods; on success it additionally broadcasts a
`browser.<action>` event carrying the payload's `sessionId`/`pageId`; on
error it only sends the failed `browser-action-result` back to the caller,
broadcasting nothing further. -/
def wsHandleBrowserAction (p : BrowserPool) (act : WsAction) (now : Nat) : WsActionOut :=
  let actionBroadcast :=
    Broadcast.browserAction (wsActionName act) (wsActionSessionId act) (wsActionPageId act)
  match act with
  | .createSessionA userId metadata =>
      let r := svcCreateSession p now userId metadata
      match r.result with
      | .ok _ => { pool := r.pool, success := true,
                   broadcasts := r.broadcasts ++ [actionBroadcast] }
      | .error _ => { pool := r.pool, success := false, broadcasts := r.broadcasts }
  | .createPageA sid url navOk =>
      let r := svcCreatePage p sid url now navOk
      match r.result with
      | .ok _ => { pool := r.pool, success := true,
                   broadcasts := r.broadcasts ++ [actionBroadcast] }
      | .error _ => { pool := r.pool, success := false, broadcasts := r.broadcasts }
  | .navigateA sid pid _ navOk =>
      let g := p.getPage sid pid now
      if g.found then
        if navOk then
          { pool := g.pool, success := true, broadcasts := [actionBroadcast] }
        else
          { pool := g.pool, success := false, broadcasts := [] }
      else
        { pool := g.pool, success := false, broadcasts := [] }
  | .clickA sid pid _ clickOk =>
      let g := p.getPage sid pid now
      if g.found then
        if clickOk then
          { pool := g.pool, success := true, broadcasts := [actionBroadcast] }
        else
          { pool := g.pool, success := false, broadcasts := [] }
      else
        { pool := g.pool, success := false, broadcasts := [] }
  | .typeA sid pid _ _ fillOk =>
      let g := p.getPage sid pid now
      if g.found then
        if fillOk then
          { pool := g.pool, success := true, broadcasts := [actionBroadcast] }
        else
          { pool := g.pool, success := false, broadcasts := [] }
      else
        { pool := g.pool, success := false, broadcasts := [] }

structure GrpcActionOut where
  pool : BrowserPool
  broadcasts : List Broadcast

/-- The structurally identical actions issued through the gRPC plane
(`acquire`, `createPage`, `navigatePage`, `click`, `type` of
`grpc-server.js`): the same (wrapped) pool methods are invoked, but the
rpc handlers themselves broadcast nothing beyond what the wrappers emit. -/
def grpcHandleAction (p : BrowserPool) (act : WsAction) (now : Nat) : GrpcActionOut :=
  match act with
  | .createSessionA userId metadata =>
      let r := svcCreateSession p now userId metadata
      { pool := r.pool, broadcasts := r.broadcasts }
  | .createPageA sid url navOk =>
      let r := svcCreatePage p sid url now navOk
      { pool := r.pool, broadcasts := r.broadcasts }
  | .navigateA sid pid _ _ =>
      let g := p.getPage sid pid now
      { pool := g.pool, broadcasts := [] }
  | .clickA sid pid _ _ =>
      let g := p.getPage sid pid now
      { pool := g.pool, broadcasts := [] }
  | .typeA sid pid _ _ _ =>
      let g := p.getPage sid pid now
      { pool := g.pool, broadcasts := [] }

/-- gRPC status codes used by the handlers of `grpc-server.js`. -/
inductive GrpcStatus
  | resourceExhausted
  | notFound
  | internal
deriving DecidableEq, Repr

/-- `BrowserPoolGrpcServer.acquire`: calls `createSession` and on success
replies with the session id; any thrown error is surfaced as a
`RESOURCE_EXHAUSTED` status. -/
def grpcAcquire (p : BrowserPool) (now : Nat) (userId : Option String)
    (metadata : List (String × String)) :
    SvcOut (Except GrpcStatus Nat) :=
  let r := svcCreateSession p now userId metadata
  match r.result with
  | .ok sid => { pool := r.pool, result := .ok sid, broadcasts := r.broadcasts }
  | .error _ => { pool := r.pool, result := .error .resourceExhausted,
                  broadcasts := r.broadcasts }

/-!
Operation sequences over the pool, used to state the reachable-state
invariants (capacity bound, activity monotonicity).
-/

inductive PoolOp
  | createSessionOp (now : Nat) (userId : Option String) (metadata : List (String × String))
  | closeSessionOp (sid : Nat) (pageCloseFails : Nat → Bool) (ctxCloseFails : Bool)
  | getSessionOp (sid : Nat) (now : Nat)
  | createPageOp (sid : Nat) (url : Option String) (now : Nat) (navOk : Bool)
  | getPageOp (sid pid : Nat) (now : Nat)
  | closePageOp (sid pid : Nat) (now : Nat) (pageCloseFails : Bool)
  | reapOp (now : Nat) (pageCloseFails : Nat → Bool) (ctxCloseFails : Bool)
  | disconnectOp (b : Nat)

/-- State transition of a single pool operation (through the wrapped
methods where broadcasting applies; the resulting pool state is the
same either way). -/
def applyOp (p : BrowserPool) (op : PoolOp) : BrowserPool :=
  match op with
  | .createSessionOp now userId metadata => (p.createSession now userId metadata).pool
  | .closeSessionOp sid pf cf => (p.closeSession sid pf cf).pool
  | .getSessionOp sid now => (p.getSession sid now).pool
  | .createPageOp sid url now navOk => (p.createPage sid url now navOk).pool
  | .getPageOp sid pid now => (p.getPage sid pid now).pool
  | .closePageOp sid pid now pf => (p.closePage sid pid now pf).pool
  | .reapOp now pf cf => (p.cleanupExpiredSessions now pf cf).1
  | .disconnectOp b => p.onBrowserDisconnected b

def applyOps (p : BrowserPool) : List PoolOp → BrowserPool
  | [] => p
  | op :: rest => applyOps (applyOp p op) rest

/-!  Association-list lemmas for the session table. -/

theorem lookupSession_cons (e : Nat × BrowserSession) (l : List (Nat × BrowserSession))
    (sid : Nat) :
    lookupSession (e :: l) sid =
      if e.1 = sid then some e.2 else lookupSession l sid := by
  by_cases h : e.1 = sid
  · rw [if_pos h]
    simp only [lookupSession]
    rw [List.find?_cons_of_pos _ (by simpa using h)]
  · rw [if_neg h]
    simp only [lookupSession]
    rw [List.find?_cons_of_neg _ (by simpa using h)]

theorem updateSession_cons (e : Nat × BrowserSession) (l : List (Nat × BrowserSession))
    (sid : Nat) (s : BrowserSession) :
    updateSession (e :: l) sid s =
      (if e.1 = sid then (e.1, s) else e) :: updateSession l sid s := by
  by_cases h : e.1 = sid
  · have hb : (e.1 == sid) = true := by simpa using h
    simp [updateSession, hb, h]
  · have hb : (e.1 == sid) = false := by simpa using h
    simp [updateSession, hb, h]

theorem removeSession_cons (e : Nat × BrowserSession) (l : List (Nat × BrowserSession))
    (sid : Nat) :
    removeSession (e :: l) sid =
      if e.1 = sid then removeSession l sid else e :: removeSession l sid := by
  by_cases h : e.1 = sid
  · have hb : (e.1 != sid) = false := by simpa using h
    simp [removeSession, hb, h]
  · have hb : (e.1 != sid) = true := by simpa using h
    simp [removeSession, hb, h]

theorem mem_of_lookupSession {l : List (Nat × BrowserSession)} {sid : Nat}
    {s : BrowserSession} (h : lookupSession l sid = some s) : (sid, s) ∈ l := by
  induction l with
  | nil => simp [lookupSession] at h
  | cons e rest ih =>
      rw [lookupSession_cons] at h
      by_cases he : e.1 = sid
      · rw [if_pos he] at h
        injection h with h2
        apply List.mem_cons.mpr
        left
        obtain ⟨a, b⟩ := e
        simp only at he h2
        rw [← he, ← h2]
      · rw [if_neg he] at h
        exact List.mem_cons.mpr (Or.inr (ih h))

theorem lookupSession_eq_none_iff (l : List (Nat × BrowserSession)) (sid : Nat) :
    lookupSession l sid = none ↔ sid ∉ l.map Prod.fst := by
  induction l with
  | nil => simp [lookupSession]
  | cons e rest ih =>
      rw [lookupSession_cons]
      by_cases he : e.1 = sid
      · simp [he]
      · simp only [he, if_false, List.map_cons, List.mem_cons, not_or, ih]
        have : ¬ sid = e.1 := fun hc => he hc.symm
        simp [this]

theorem lookupSession_isSome_iff (l : List (Nat × BrowserSession)) (sid : Nat) :
    (lookupSession l sid).isSome ↔ sid ∈ l.map Prod.fst := by
  cases hl : lookupSession l sid with
  | none =>
      simp only [Option.isSome_none, Bool.false_eq_true, false_iff]
      exact (lookupSession_eq_none_iff l sid).mp hl
  | some s =>
      simp only [Option.isSome_some, true_iff]
      exact List.mem_map.mpr ⟨(sid, s), mem_of_lookupSession hl, rfl⟩

theorem updateSession_of_not_mem {l : List (Nat × BrowserSession)} {sid : Nat}
    (h : sid ∉ l.map Prod.fst) (s : BrowserSession) :
    updateSession l sid s = l := by
  induction l with
  | nil => rfl
  | cons e rest ih =>
      simp only [List.map_cons, List.mem_cons, not_or] at h
      rw [updateSession_cons]
      rw [if_neg (fun hc => h.1 hc.symm)]
      rw [ih h.2]

theorem lookupSession_update_self {l : List (Nat × BrowserSession)} {sid : Nat}
    {s : BrowserSession} (h : lookupSession l sid = some s) (v : BrowserSession) :
    lookupSession (updateSession l sid v) sid = some v := by
  induction l with
  | nil => simp [lookupSession] at h
  | cons e rest ih =>
      rw [lookupSession_cons] at h
      rw [updateSession_cons]
      by_cases he : e.1 = sid
      · rw [if_pos he, lookupSession_cons]
        simp only
        rw [if_pos he]
      · rw [if_neg he] at h
        rw [if_neg he, lookupSession_cons, if_neg he]
        exact ih h

theorem lookupSession_update_other (l : List (Nat × BrowserSession)) (sid : Nat)
    (v : BrowserSession) {sid' : Nat} (h : sid' ≠ sid) :
    lookupSession (updateSession l sid v) sid' = lookupSession l sid' := by
  induction l with
  | nil => rfl
  | cons e rest ih =>
      rw [updateSession_cons]
      by_cases he : e.1 = sid
      · rw [if_pos he, lookupSession_cons, lookupSession_cons]
        simp only
        have hne : ¬ e.1 = sid' := by rw [he]; exact fun hc => h hc.symm
        rw [if_neg hne, if_neg hne]
        exact ih
      · rw [if_neg he, lookupSession_cons, lookupSession_cons]
        by_cases he' : e.1 = sid'
        · rw [if_pos he', if_pos he']
        · rw [if_neg he', if_neg he']
          exact ih

theorem lookupSession_remove_self (l : List (Nat × BrowserSession)) (sid : Nat) :
    lookupSession (removeSession l sid) sid = none := by
  induction l with
  | nil => rfl
  | cons e rest ih =>
      rw [removeSession_cons]
      by_cases he : e.1 = sid
      · rw [if_pos he]
        exact ih
      · rw [if_neg he, lookupSession_cons, if_neg he]
        exact ih

theorem lookupSession_remove_other (l : List (Nat × BrowserSession)) (sid : Nat)
    {sid' : Nat} (h : sid' ≠ sid) :
    lookupSession (removeSession l sid) sid' = lookupSession l sid' := by
  induction l with
  | nil => rfl
  | cons e rest ih =>
      rw [removeSession_cons]
      by_cases he : e.1 = sid
      · rw [if_pos he, lookupSession_cons]
        have hne : ¬ e.1 = sid' := by rw [he]; exact fun hc => h hc.symm
        rw [if_neg hne]
        exact ih
      · rw [if_neg he, lookupSession_cons, lookupSession_cons]
        by_cases he' : e.1 = sid'
        · rw [if_pos he', if_pos he']
        · rw [if_neg he', if_neg he']
          exact ih

theorem updateSession_length (l : List (Nat × BrowserSession)) (sid : Nat)
    (s : BrowserSession) : (updateSession l sid s).length = l.length := by
  simp [updateSession]

theorem removeSession_length_le (l : List (Nat × BrowserSession)) (sid : Nat) :
    (removeSession l sid).length ≤ l.length :=
  List.length_filter_le _ l

theorem updateSession_keys (l : List (Nat × BrowserSession)) (sid : Nat)
    (s : BrowserSession) :
    (updateSession l sid s).map Prod.fst = l.map Prod.fst := by
  induction l with
  | nil => rfl
  | cons e rest ih =>
      rw [updateSession_cons]
      by_cases he : e.1 = sid
      · rw [if_pos he]
        simp only [List.map_cons]
        rw [ih]
      · rw [if_neg he]
        simp only [List.map_cons]
        rw [ih]

theorem removeSession_sublist (l : List (Nat × BrowserSession)) (sid : Nat) :
    (removeSession l sid).Sublist l :=
  List.filter_sublist l

/-!  Characterization of the individual pool operations. -/

theorem closePagesLoop_eq (pages : List Nat) (pageCloseFails : Nat → Bool) :
    closePagesLoop pages pageCloseFails = pages.map EngineCall.closePageCall := by
  induction pages with
  | nil => rfl
  | cons pid rest ih =>
      simp only [closePagesLoop]
      by_cases h : pageCloseFails pid <;> simp [h, ih]

theorem closeRun_eq (s : BrowserSession) (pageCloseFails : Nat → Bool)
    (ctxCloseFails : Bool) :
    s.closeRun pageCloseFails ctxCloseFails =
      .ok ({ s with pages := [] },
           s.pages.map EngineCall.closePageCall ++ [EngineCall.closeContextCall]) := by
  simp only [BrowserSession.closeRun, closePagesLoop_eq]
  by_cases h : ctxCloseFails <;> simp [h]

theorem createSession_maxBrowsers (p : BrowserPool) (now : Nat) (userId : Option String)
    (metadata : List (String × String)) :
    (p.createSession now userId metadata).pool.maxBrowsers = p.maxBrowsers := by
  simp only [BrowserPool.createSession]
  split <;> rfl

theorem createSession_of_full (p : BrowserPool) (now : Nat) (userId : Option String)
    (metadata : List (String × String)) (h : p.maxBrowsers ≤ p.activeSessions.length) :
    p.createSession now userId metadata = ⟨p, .error .CapacityExceeded⟩ := by
  simp only [BrowserPool.createSession]
  rw [if_pos h]

theorem createSession_sessions_of_avail (p : BrowserPool) (now : Nat)
    (userId : Option String) (metadata : List (String × String))
    (h : p.activeSessions.length < p.maxBrowsers) :
    ∃ s : BrowserSession,
      (p.createSession now userId metadata).pool.activeSessions
        = p.activeSessions ++ [((if p.browsers.isEmpty then p.nextId + 1 else p.nextId), s)] := by
  simp only [BrowserPool.createSession]
  rw [if_neg (by omega)]
  exact ⟨_, rfl⟩

theorem getSession_of_none (p : BrowserPool) (sid : Nat) (now : Nat)
    (h : lookupSession p.activeSessions sid = none) :
    p.getSession sid now = ⟨p, none⟩ := by
  simp only [BrowserPool.getSession]
  rw [h]

theorem getSession_of_some (p : BrowserPool) (sid : Nat) (now : Nat)
    {s : BrowserSession} (h : lookupSession p.activeSessions sid = some s) :
    p.getSession sid now =
      ⟨{ p with activeSessions :=
           updateSession p.activeSessions sid { s with lastActivity := now } },
        some { s with lastActivity := now }⟩ := by
  simp only [BrowserPool.getSession]
  rw [h]

theorem closeSession_of_none (p : BrowserPool) (sid : Nat) (pageCloseFails : Nat → Bool)
    (ctxCloseFails : Bool) (h : lookupSession p.activeSessions sid = none) :
    p.closeSession sid pageCloseFails ctxCloseFails = ⟨p, .ok false, []⟩ := by
  simp only [BrowserPool.closeSession]
  rw [h]

theorem closeSession_of_some (p : BrowserPool) (sid : Nat) (pageCloseFails : Nat → Bool)
    (ctxCloseFails : Bool) {s : BrowserSession}
    (h : lookupSession p.activeSessions sid = some s) :
    p.closeSession sid pageCloseFails ctxCloseFails =
      ⟨{ p with activeSessions := removeSession p.activeSessions sid },
        .ok true,
        s.pages.map EngineCall.closePageCall ++ [EngineCall.closeContextCall]⟩ := by
  simp only [BrowserPool.closeSession, h, closeRun_eq]

theorem closeSession_pool_length_le (p : BrowserPool) (sid : Nat)
    (pageCloseFails : Nat → Bool) (ctxCloseFails : Bool) :
    (p.closeSession sid pageCloseFails ctxCloseFails).pool.activeSessions.length
      ≤ p.activeSessions.length := by
  cases h : lookupSession p.activeSessions sid with
  | none => rw [closeSession_of_none p sid pageCloseFails ctxCloseFails h]
  | some s =>
      rw [closeSession_of_some p sid pageCloseFails ctxCloseFails h]
      exact removeSession_length_le _ _

theorem closeSession_pool_maxBrowsers (p : BrowserPool) (sid : Nat)
    (pageCloseFails : Nat → Bool) (ctxCloseFails : Bool) :
    (p.closeSession sid pageCloseFails ctxCloseFails).pool.maxBrowsers = p.maxBrowsers := by
  cases h : lookupSession p.activeSessions sid with
  | none => rw [closeSession_of_none p sid pageCloseFails ctxCloseFails h]
  | some s => rw [closeSession_of_some p sid pageCloseFails ctxCloseFails h]

theorem getSession_pool_length (p : BrowserPool) (sid : Nat) (now : Nat) :
    (p.getSession sid now).pool.activeSessions.length = p.activeSessions.length := by
  cases h : lookupSession p.activeSessions sid with
  | none => rw [getSession_of_none p sid now h]
  | some s =>
      rw [getSession_of_some p sid now h]
      exact updateSession_length _ _ _

theorem getSession_pool_maxBrowsers (p : BrowserPool) (sid : Nat) (now : Nat) :
    (p.getSession sid now).pool.maxBrowsers = p.maxBrowsers := by
  cases h : lookupSession p.activeSessions sid with
  | none => rw [getSession_of_none p sid now h]
  | some s => rw [getSession_of_some p sid now h]

theorem createPage_of_none (p : BrowserPool) (sid : Nat) (url : Option String)
    (now : Nat) (navOk : Bool) (h : lookupSession p.activeSessions sid = none) :
    p.createPage sid url now navOk = ⟨p, .error .NotFound, []⟩ := by
  simp only [BrowserPool.createPage]
  rw [getSession_of_none p sid now h]

theorem updateSession_updateSession (l : List (Nat × BrowserSession)) (sid : Nat)
    (a b : BrowserSession) :
    updateSession (updateSession l sid a) sid b = updateSession l sid b := by
  induction l with
  | nil => rfl
  | cons e rest ih =>
      by_cases he : e.1 = sid <;> simp [updateSession_cons, he, ih]

theorem createPage_pool_of_some (p : BrowserPool) (sid : Nat) (url : Option String)
    (now : Nat) (navOk : Bool) {s : BrowserSession}
    (h : lookupSession p.activeSessions sid = some s) :
    (p.createPage sid url now navOk).pool =
      { p with nextId := p.nextId + 1
               activeSessions := updateSession p.activeSessions sid
                 { s with pages := s.pages ++ [p.nextId], lastActivity := now } } := by
  simp only [BrowserPool.createPage]
  rw [getSession_of_some p sid now h]
  simp only [BrowserSession.addPage]
  have hu : lookupSession
      (updateSession p.activeSessions sid { s with lastActivity := now }) sid
      = some { s with lastActivity := now } := lookupSession_update_self h _
  cases url with
  | none =>
      simp only [updateSession_updateSession]
  | some u =>
      by_cases hn : navOk <;> simp [hn, updateSession_updateSession]

theorem createPage_result_of_some (p : BrowserPool) (sid : Nat) (url : Option String)
    (now : Nat) (navOk : Bool) {s : BrowserSession}
    (h : lookupSession p.activeSessions sid = some s) :
    (p.createPage sid url now navOk).result =
      (match url with
       | some _ => if navOk then .ok p.nextId else .error .NavigationFailure
       | none => .ok p.nextId) := by
  simp only [BrowserPool.createPage]
  rw [getSession_of_some p sid now h]
  cases url with
  | none => simp
  | some u => by_cases hn : navOk <;> simp [hn]

theorem createPage_calls_of_some (p : BrowserPool) (sid : Nat) (url : Option String)
    (now : Nat) (navOk : Bool) {s : BrowserSession}
    (h : lookupSession p.activeSessions sid = some s) :
    (p.createPage sid url now navOk).engineCalls =
      (match url with
       | some u => [EngineCall.newPageCall,
                    EngineCall.gotoCall u (some (p.maxPageLoadTime * 1000))]
       | none => [EngineCall.newPageCall]) := by
  simp only [BrowserPool.createPage]
  rw [getSession_of_some p sid now h]
  cases url with
  | none => simp
  | some u => by_cases hn : navOk <;> simp [hn]

theorem createPage_pool_length (p : BrowserPool) (sid : Nat) (url : Option String)
    (now : Nat) (navOk : Bool) :
    (p.createPage sid url now navOk).pool.activeSessions.length
      = p.activeSessions.length := by
  cases h : lookupSession p.activeSessions sid with
  | none => rw [createPage_of_none p sid url now navOk h]
  | some s =>
      rw [createPage_pool_of_some p sid url now navOk h]
      exact updateSession_length _ _ _

theorem createPage_pool_maxBrowsers (p : BrowserPool) (sid : Nat) (url : Option String)
    (now : Nat) (navOk : Bool) :
    (p.createPage sid url now navOk).pool.maxBrowsers = p.maxBrowsers := by
  cases h : lookupSession p.activeSessions sid with
  | none => rw [createPage_of_none p sid url now navOk h]
  | some s => rw [createPage_pool_of_some p sid url now navOk h]

theorem getPage_pool (p : BrowserPool) (sid pid : Nat) (now : Nat) :
    (p.getPage sid pid now).pool = (p.getSession sid now).pool := by
  simp only [BrowserPool.getPage]
  cases h : (p.getSession sid now).session <;> simp [h]

theorem closePage_pool_length (p : BrowserPool) (sid pid : Nat) (now : Nat)
    (pageCloseFails : Bool) :
    (p.closePage sid pid now pageCloseFails).pool.activeSessions.length
      = p.activeSessions.length := by
  simp only [BrowserPool.closePage]
  cases h : (p.getSession sid now).session with
  | none => simp [h, getSession_pool_length]
  | some s =>
      simp only [h]
      by_cases hp : s.hasPage pid
      · by_cases hf : pageCloseFails
        · simp [hp, hf, getSession_pool_length]
        · simp [hp, hf, updateSession_length, getSession_pool_length]
      · simp [hp, getSession_pool_length]

theorem closePage_pool_maxBrowsers (p : BrowserPool) (sid pid : Nat) (now : Nat)
    (pageCloseFails : Bool) :
    (p.closePage sid pid now pageCloseFails).pool.maxBrowsers = p.maxBrowsers := by
  simp only [BrowserPool.closePage]
  cases h : (p.getSession sid now).session with
  | none => simp [h, getSession_pool_maxBrowsers]
  | some s =>
      simp only [h]
      by_cases hp : s.hasPage pid
      · by_cases hf : pageCloseFails
        · simp [hp, hf, getSession_pool_maxBrowsers]
        · simp [hp, hf, getSession_pool_maxBrowsers]
      · simp [hp, getSession_pool_maxBrowsers]

theorem onBrowserDisconnected_sessions (p : BrowserPool) (b : Nat) :
    (p.onBrowserDisconnected b).activeSessions = p.activeSessions := by
  simp only [BrowserPool.onBrowserDisconnected]
  split <;> rfl

theorem onBrowserDisconnected_maxBrowsers (p : BrowserPool) (b : Nat) :
    (p.onBrowserDisconnected b).maxBrowsers = p.maxBrowsers := by
  simp only [BrowserPool.onBrowserDisconnected]
  split <;> rfl

theorem svcCloseSession_pool (p : BrowserPool) (sid : Nat) (pageCloseFails : Nat → Bool)
    (ctxCloseFails : Bool) :
    (svcCloseSession p sid pageCloseFails ctxCloseFails).pool
      = (p.closeSession sid pageCloseFails ctxCloseFails).pool := by
  simp only [svcCloseSession]
  cases h : (p.closeSession sid pageCloseFails ctxCloseFails).result with
  | error e => simp [h]
  | ok b => cases b <;> simp [h]

theorem closeSessionsLoop_length_le (ids : List Nat) (p : BrowserPool)
    (acc : List Broadcast) (pageCloseFails : Nat → Bool) (ctxCloseFails : Bool) :
    (closeSessionsLoop p ids acc pageCloseFails ctxCloseFails).1.activeSessions.length
      ≤ p.activeSessions.length := by
  induction ids generalizing p acc with
  | nil => simp [closeSessionsLoop]
  | cons sid rest ih =>
      simp only [closeSessionsLoop]
      calc (closeSessionsLoop (svcCloseSession p sid pageCloseFails ctxCloseFails).pool rest
              (acc ++ (svcCloseSession p sid pageCloseFails ctxCloseFails).broadcasts)
              pageCloseFails ctxCloseFails).1.activeSessions.length
          ≤ (svcCloseSession p sid pageCloseFails ctxCloseFails).pool.activeSessions.length :=
            ih _ _
        _ ≤ p.activeSessions.length := by
            rw [svcCloseSession_pool]
            exact closeSession_pool_length_le _ _ _ _

theorem closeSessionsLoop_maxBrowsers (ids : List Nat) (p : BrowserPool)
    (acc : List Broadcast) (pageCloseFails : Nat → Bool) (ctxCloseFails : Bool) :
    (closeSessionsLoop p ids acc pageCloseFails ctxCloseFails).1.maxBrowsers
      = p.maxBrowsers := by
  induction ids generalizing p acc with
  | nil => simp [closeSessionsLoop]
  | cons sid rest ih =>
      simp only [closeSessionsLoop]
      rw [ih]
      rw [svcCloseSession_pool]
      exact closeSession_pool_maxBrowsers _ _ _ _

/-!  The capacity invariant over operation sequences. -/

theorem applyOp_maxBrowsers (p : BrowserPool) (op : PoolOp) :
    (applyOp p op).maxBrowsers = p.maxBrowsers := by
  cases op with
  | createSessionOp now userId metadata => exact createSession_maxBrowsers p now userId metadata
  | closeSessionOp sid pf cf => exact closeSession_pool_maxBrowsers p sid pf cf
  | getSessionOp sid now => exact getSession_pool_maxBrowsers p sid now
  | createPageOp sid url now navOk => exact createPage_pool_maxBrowsers p sid url now navOk
  | getPageOp sid pid now =>
      simp only [applyOp]
      rw [getPage_pool]
      exact getSession_pool_maxBrowsers p sid now
  | closePageOp sid pid now pf => exact closePage_pool_maxBrowsers p sid pid now pf
  | reapOp now pf cf =>
      simp only [applyOp, BrowserPool.cleanupExpiredSessions]
      exact closeSessionsLoop_maxBrowsers _ _ _ _ _
  | disconnectOp b => exact onBrowserDisconnected_maxBrowsers p b

theorem createSession_pool_length_le (p : BrowserPool) (now : Nat)
    (userId : Option String) (metadata : List (String × String))
    (h : p.activeSessions.length ≤ p.maxBrowsers) :
    (p.createSession now userId metadata).pool.activeSessions.length ≤ p.maxBrowsers := by
  by_cases hf : p.maxBrowsers ≤ p.activeSessions.length
  · rw [createSession_of_full p now userId metadata hf]
    exact h
  · obtain ⟨s, hs⟩ := createSession_sessions_of_avail p now userId metadata (by omega)
    rw [hs]
    simp only [List.length_append, List.length_singleton]
    omega

theorem applyOp_capacity (p : BrowserPool) (op : PoolOp)
    (h : p.activeSessions.length ≤ p.maxBrowsers) :
    (applyOp p op).activeSessions.length ≤ p.maxBrowsers := by
  cases op with
  | createSessionOp now userId metadata =>
      exact createSession_pool_length_le p now userId metadata h
  | closeSessionOp sid pf cf =>
      exact le_trans (closeSession_pool_length_le p sid pf cf) h
  | getSessionOp sid now =>
      simp only [applyOp]
      rw [getSession_pool_length]
      exact h
  | createPageOp sid url now navOk =>
      simp only [applyOp]
      rw [createPage_pool_length]
      exact h
  | getPageOp sid pid now =>
      simp only [applyOp]
      rw [getPage_pool, getSession_pool_length]
      exact h
  | closePageOp sid pid now pf =>
      simp only [applyOp]
      rw [closePage_pool_length]
      exact h
  | reapOp now pf cf =>
      simp only [applyOp, BrowserPool.cleanupExpiredSessions]
      exact le_trans (closeSessionsLoop_length_le _ _ _ _ _) h
  | disconnectOp b =>
      simp only [applyOp]
      rw [onBrowserDisconnected_sessions]
      exact h

theorem applyOps_capacity (ops : List PoolOp) (p : BrowserPool)
    (h : p.activeSessions.length ≤ p.maxBrowsers) :
    (applyOps p ops).activeSessions.length ≤ (applyOps p ops).maxBrowsers := by
  induction ops generalizing p with
  | nil => exact h
  | cons op rest ih =>
      simp only [applyOps]
      apply ih
      rw [applyOp_maxBrowsers]
      exact applyOp_capacity p op h

theorem applyOps_maxBrowsers (ops : List PoolOp) (p : BrowserPool) :
    (applyOps p ops).maxBrowsers = p.maxBrowsers := by
  induction ops generalizing p with
  | nil => rfl
  | cons op rest ih =>
      simp only [applyOps]
      rw [ih, applyOp_maxBrowsers]

/-- C1: For every sequence of Pool Manager operations (createSession,
closeSession, createPage, closePage, reaper sweeps — plus the remaining
session/page operations and engine disconnections) starting from the
initial empty pool, the number of active sessions never exceeds the
configured maximum (`maxBrowsers`). -/
theorem capacity_never_exceeded (maxBrowsers browserTimeout maxPageLoadTime : Nat)
    (ops : List PoolOp) :
    (applyOps (BrowserPool.start maxBrowsers browserTimeout maxPageLoadTime)
      ops).activeSessions.length ≤ maxBrowsers := by
  have h := applyOps_capacity ops
    (BrowserPool.start maxBrowsers browserTimeout maxPageLoadTime)
    (by simp [BrowserPool.start])
  rw [applyOps_maxBrowsers] at h
  exact h

/-!  createSession at and below capacity (claim C2). -/

/-- The engine list after the lazy launch at the head of `createSession`. -/
def launchedBrowsers (p : BrowserPool) : List Nat :=
  if p.browsers.isEmpty then p.browsers ++ [p.nextId] else p.browsers

/-- The session id `createSession` allocates below capacity. -/
def freshSessionId (p : BrowserPool) : Nat :=
  if p.browsers.isEmpty then p.nextId + 1 else p.nextId

/-- The session value `createSession` registers below capacity. -/
def newSessionValue (p : BrowserPool) (now : Nat) (userId : Option String)
    (metadata : List (String × String)) : BrowserSession :=
  { sessionId := freshSessionId p
    engineId := (launchedBrowsers p).headD 0
    createdAt := now
    lastActivity := now
    pages := []
    metadata := metadata ++ (match userId with
      | some u => [("user_id", u)]
      | none => []) }

theorem createSession_of_avail (p : BrowserPool) (now : Nat) (userId : Option String)
    (metadata : List (String × String)) (h : p.activeSessions.length < p.maxBrowsers) :
    p.createSession now userId metadata =
      ⟨{ p with browsers := launchedBrowsers p
                nextId := freshSessionId p + 1
                activeSessions := p.activeSessions ++
                  [(freshSessionId p, newSessionValue p now userId metadata)] },
        .ok (freshSessionId p)⟩ := by
  simp only [BrowserPool.createSession, launchedBrowsers, freshSessionId, newSessionValue]
  rw [if_neg (by omega)]

theorem lookupSession_append_fresh {l : List (Nat × BrowserSession)} {sid : Nat}
    (h : sid ∉ l.map Prod.fst) (s : BrowserSession) :
    lookupSession (l ++ [(sid, s)]) sid = some s := by
  induction l with
  | nil =>
      rw [List.nil_append, lookupSession_cons]
      simp
  | cons e rest ih =>
      simp only [List.map_cons, List.mem_cons, not_or] at h
      rw [List.cons_append, lookupSession_cons]
      rw [if_neg (fun hc => h.1 hc.symm)]
      exact ih h.2

theorem svcCreateSession_result (p : BrowserPool) (now : Nat) (userId : Option String)
    (metadata : List (String × String)) :
    (svcCreateSession p now userId metadata).result
      = (p.createSession now userId metadata).result := by
  simp only [svcCreateSession]
  cases h : (p.createSession now userId metadata).result with
  | error e => simp [h]
  | ok sid => simp [h]

/-- A pool with one session and capacity one, used to instantiate the
capacity-boundary theorem at a concrete input. -/
def demoFullPool : BrowserPool :=
  ((BrowserPool.start 1 300 30).createSession 5 none []).pool

/-- C2: createSession fails with a CapacityExceeded error (surfaced as
RESOURCE_EXHAUSTED by the gRPC `acquire` handler) exactly when the active
session count already equals the configured maximum; otherwise it selects
the first engine in the active list, registers a new session under a
fresh id, and returns that id. -/
theorem createSession_capacity_boundary (p : BrowserPool) (now : Nat)
    (userId : Option String) (metadata : List (String × String))
    (hcap : p.activeSessions.length ≤ p.maxBrowsers)
    (hfresh : ∀ k ∈ p.activeSessions.map Prod.fst, k < p.nextId) :
    ((p.createSession now userId metadata).result = .error .CapacityExceeded
        ↔ p.activeSessions.length = p.maxBrowsers)
    ∧ (p.activeSessions.length = p.maxBrowsers →
        (grpcAcquire p now userId metadata).result = .error .resourceExhausted)
    ∧ (p.activeSessions.length ≠ p.maxBrowsers →
        (p.createSession now userId metadata).result = .ok (freshSessionId p)
        ∧ freshSessionId p ∉ p.activeSessions.map Prod.fst
        ∧ lookupSession (p.createSession now userId metadata).pool.activeSessions
            (freshSessionId p) = some (newSessionValue p now userId metadata)
        ∧ (newSessionValue p now userId metadata).engineId
            = (p.createSession now userId metadata).pool.browsers.headD 0) := by
  have hfreshId : freshSessionId p ∉ p.activeSessions.map Prod.fst := by
    intro hmem
    have := hfresh _ hmem
    simp only [freshSessionId] at this
    by_cases hb : p.browsers.isEmpty <;> simp [hb] at this
  refine ⟨?_, ?_, ?_⟩
  · constructor
    · intro herr
      by_contra hne
      have hlt : p.activeSessions.length < p.maxBrowsers := by omega
      rw [createSession_of_avail p now userId metadata hlt] at herr
      simp at herr
    · intro heq
      rw [createSession_of_full p now userId metadata (le_of_eq heq.symm)]
  · intro heq
    simp only [grpcAcquire]
    rw [svcCreateSession_result]
    rw [createSession_of_full p now userId metadata (le_of_eq heq.symm)]
  · intro hne
    have hlt : p.activeSessions.length < p.maxBrowsers := by omega
    rw [createSession_of_avail p now userId metadata hlt]
    refine ⟨rfl, hfreshId, ?_, rfl⟩
    exact lookupSession_append_fresh hfreshId _

/-- Concrete instantiation of the capacity boundary: with `maxBrowsers = 1`
and one active session, `createSession` fails `CapacityExceeded` and the
gRPC `acquire` surfaces `RESOURCE_EXHAUSTED`. -/
theorem createSession_capacity_boundary_witness :
    (demoFullPool.createSession 7 none []).result = .error .CapacityExceeded
    ∧ (grpcAcquire demoFullPool 7 none []).result = .error .resourceExhausted := by
  have h := createSession_capacity_boundary demoFullPool 7 none []
    (by decide) (by decide)
  exact ⟨h.1.mpr (by decide), h.2.1 (by decide)⟩

/-!  The reaper sweep (claim C3). -/

theorem svcCloseSession_of_some (p : BrowserPool) (sid : Nat) (pageCloseFails : Nat → Bool)
    (ctxCloseFails : Bool) {s : BrowserSession}
    (h : lookupSession p.activeSessions sid = some s) :
    svcCloseSession p sid pageCloseFails ctxCloseFails =
      ⟨{ p with activeSessions := removeSession p.activeSessions sid },
        .ok true, [Broadcast.sessionClosed sid]⟩ := by
  simp only [svcCloseSession, closeSession_of_some p sid pageCloseFails ctxCloseFails h]

theorem svcCloseSession_of_none (p : BrowserPool) (sid : Nat) (pageCloseFails : Nat → Bool)
    (ctxCloseFails : Bool) (h : lookupSession p.activeSessions sid = none) :
    svcCloseSession p sid pageCloseFails ctxCloseFails = ⟨p, .ok false, []⟩ := by
  simp only [svcCloseSession, closeSession_of_none p sid pageCloseFails ctxCloseFails h]

theorem mem_keys_removeSession {l : List (Nat × BrowserSession)} {sid i : Nat}
    (h : i ≠ sid) :
    i ∈ (removeSession l sid).map Prod.fst ↔ i ∈ l.map Prod.fst := by
  rw [← lookupSession_isSome_iff, ← lookupSession_isSome_iff,
      lookupSession_remove_other l sid h]

theorem closeSessionsLoop_spec (ids : List Nat) (p : BrowserPool) (acc : List Broadcast)
    (pageCloseFails : Nat → Bool) (ctxCloseFails : Bool)
    (hnd : ids.Nodup)
    (hsub : ∀ i ∈ ids, i ∈ p.activeSessions.map Prod.fst) :
    (closeSessionsLoop p ids acc pageCloseFails ctxCloseFails).1 =
      { p with activeSessions :=
          p.activeSessions.filter (fun e => !(ids.contains e.1)) }
    ∧ (closeSessionsLoop p ids acc pageCloseFails ctxCloseFails).2
        = acc ++ ids.map Broadcast.sessionClosed := by
  induction ids generalizing p acc with
  | nil => simp [closeSessionsLoop]
  | cons sid rest ih =>
      have hmem : sid ∈ p.activeSessions.map Prod.fst := hsub sid (by simp)
      have hs : ∃ s, lookupSession p.activeSessions sid = some s := by
        have := (lookupSession_isSome_iff p.activeSessions sid).mpr hmem
        exact Option.isSome_iff_exists.mp this
      obtain ⟨s, hs⟩ := hs
      simp only [closeSessionsLoop, svcCloseSession_of_some p sid pageCloseFails
        ctxCloseFails hs]
      have hnd2 := (List.nodup_cons.mp hnd).2
      have hnotin := (List.nodup_cons.mp hnd).1
      have hsub2 : ∀ i ∈ rest,
          i ∈ (({ p with activeSessions := removeSession p.activeSessions sid }
            : BrowserPool)).activeSessions.map Prod.fst := by
        intro i hi
        have hne : i ≠ sid := fun hc => hnotin (hc ▸ hi)
        show i ∈ (removeSession p.activeSessions sid).map Prod.fst
        exact (mem_keys_removeSession hne).mpr (hsub i (List.mem_cons.mpr (Or.inr hi)))
      have hloop := ih { p with activeSessions := removeSession p.activeSessions sid }
        (acc ++ [Broadcast.sessionClosed sid]) hnd2 hsub2
      refine ⟨?_, ?_⟩
      · rw [hloop.1]
        simp only [removeSession, List.filter_filter]
        congr 1
        apply List.filter_congr
        intro e _
        simp only [List.contains_cons, Bool.not_or, bne]
        by_cases hd : e.1 = sid <;> by_cases hm : e.1 ∈ rest <;> simp [hd, hm]
      · rw [hloop.2]
        simp

theorem reaper_sweep_core (p : BrowserPool) (now : Nat) (pageCloseFails : Nat → Bool)
    (ctxCloseFails : Bool) (hnd : (p.activeSessions.map Prod.fst).Nodup) :
    (p.cleanupExpiredSessions now pageCloseFails ctxCloseFails).1.activeSessions
      = p.activeSessions.filter (fun e => !(e.2.isExpired p.browserTimeout now))
    ∧ (p.cleanupExpiredSessions now pageCloseFails ctxCloseFails).2
      = ((p.activeSessions.filter (fun e => e.2.isExpired p.browserTimeout now)).map
          Prod.fst).map Broadcast.sessionClosed := by
  have hidsnd : (((p.activeSessions.filter
      (fun e => e.2.isExpired p.browserTimeout now)).map Prod.fst)).Nodup :=
    List.Nodup.sublist (List.Sublist.map Prod.fst (List.filter_sublist _)) hnd
  have hidssub : ∀ i ∈ ((p.activeSessions.filter
      (fun e => e.2.isExpired p.browserTimeout now)).map Prod.fst),
      i ∈ p.activeSessions.map Prod.fst := fun i hi =>
    (List.Sublist.map Prod.fst (List.filter_sublist _)).subset hi
  have h := closeSessionsLoop_spec _ p [] pageCloseFails ctxCloseFails hidsnd hidssub
  constructor
  · show (closeSessionsLoop p _ [] pageCloseFails ctxCloseFails).1.activeSessions = _
    rw [h.1]
    apply List.filter_congr
    intro e he
    have hiff : (((p.activeSessions.filter
        (fun x => x.2.isExpired p.browserTimeout now)).map Prod.fst).contains e.1)
        = e.2.isExpired p.browserTimeout now := by
      by_cases hq : e.2.isExpired p.browserTimeout now
      · rw [hq]
        exact List.elem_iff.mpr (List.mem_map.mpr ⟨e, List.mem_filter.mpr ⟨he, hq⟩, rfl⟩)
      · simp only [Bool.not_eq_true] at hq
        rw [hq]
        rw [Bool.eq_false_iff]
        intro hc
        have hmem := List.elem_iff.mp hc
        obtain ⟨e2, he2, hk⟩ := List.mem_map.mp hmem
        have he2l := List.mem_filter.mp he2
        have : e2 = e := List.inj_on_of_nodup_map hnd he2l.1 he hk
        rw [this] at he2l
        rw [hq] at he2l
        simp at he2l
    rw [hiff]
  · show (closeSessionsLoop p _ [] pageCloseFails ctxCloseFails).2 = _
    rw [h.2]
    simp

/-- A pool with two sessions created at times 1000 and 2000 (milliseconds),
timeout 300 seconds. -/
def demoReapPool : BrowserPool :=
  (((BrowserPool.start 3 300 30).createSession 1000 none []).pool.createSession
    2000 none []).pool

/-- C3: a reaper sweep closes exactly those sessions whose idle time
strictly exceeds the configured timeout — the surviving table is the
restriction to the non-expired sessions — and publishes one
`session.closed` broadcast per closed session, in table order. -/
theorem reaper_sweep_spec (p : BrowserPool) (now : Nat) (pageCloseFails : Nat → Bool)
    (ctxCloseFails : Bool) (hnd : (p.activeSessions.map Prod.fst).Nodup) :
    (p.cleanupExpiredSessions now pageCloseFails ctxCloseFails).1.activeSessions
      = p.activeSessions.filter (fun e => !(e.2.isExpired p.browserTimeout now))
    ∧ (p.cleanupExpiredSessions now pageCloseFails ctxCloseFails).2
      = ((p.activeSessions.filter (fun e => e.2.isExpired p.browserTimeout now)).map
          Prod.fst).map Broadcast.sessionClosed :=
  reaper_sweep_core p now pageCloseFails ctxCloseFails hnd

/-- Concrete sweep: of the two sessions (ids 3 and 4, lastActivity 1000 and
2000), at `now = 302000` only session 3 is past the 300-second timeout; it
alone is reaped and broadcast. -/
theorem reaper_sweep_spec_witness :
    (demoReapPool.cleanupExpiredSessions 302000 (fun _ => false) false).2
      = [Broadcast.sessionClosed 3]
    ∧ ((demoReapPool.cleanupExpiredSessions 302000 (fun _ => false)
        false).1.activeSessions).map Prod.fst = [4] := by
  have h := reaper_sweep_spec demoReapPool 302000 (fun _ => false) false (by decide)
  constructor
  · rw [h.2]
    decide
  · rw [h.1]
    decide

/-!  closeSession and createPage behaviour (claims C6, C7, C9, C10). -/

/-- The single session of `demoFullPool` (id 1, no pages). -/
def demoSession0 : BrowserSession :=
  { sessionId := 1, engineId := 0, createdAt := 5, lastActivity := 5,
    pages := [], metadata := [] }

/-- `demoFullPool` after creating one page (id 2) in session 1. -/
def demoPagePool : BrowserPool :=
  (demoFullPool.createPage 1 none 6 true).pool

/-- The session of `demoPagePool` (one page, id 2). -/
def demoSession1 : BrowserSession :=
  { sessionId := 1, engineId := 0, createdAt := 5, lastActivity := 6,
    pages := [2], metadata := [] }

/-- C7: closing an existing session closes each of its pages and its
context, removes it from the table (leaving other sessions untouched) and
returns true; closing an absent session — in particular a second close of
the same id — returns false and leaves the pool unchanged. -/
theorem closeSession_spec (p : BrowserPool) (sid : Nat) (pageCloseFails : Nat → Bool)
    (ctxCloseFails : Bool) :
    (∀ s, lookupSession p.activeSessions sid = some s →
      (p.closeSession sid pageCloseFails ctxCloseFails).result = .ok true
      ∧ (p.closeSession sid pageCloseFails ctxCloseFails).engineCalls
          = s.pages.map EngineCall.closePageCall ++ [EngineCall.closeContextCall]
      ∧ lookupSession
          (p.closeSession sid pageCloseFails ctxCloseFails).pool.activeSessions sid = none
      ∧ ∀ sid2, sid2 ≠ sid →
          lookupSession
            (p.closeSession sid pageCloseFails ctxCloseFails).pool.activeSessions sid2
            = lookupSession p.activeSessions sid2)
    ∧ (lookupSession p.activeSessions sid = none →
        (p.closeSession sid pageCloseFails ctxCloseFails).result = .ok false
        ∧ (p.closeSession sid pageCloseFails ctxCloseFails).pool = p)
    ∧ ((p.closeSession sid pageCloseFails ctxCloseFails).pool.closeSession sid
          pageCloseFails ctxCloseFails).result = .ok false
    ∧ ((p.closeSession sid pageCloseFails ctxCloseFails).pool.closeSession sid
          pageCloseFails ctxCloseFails).pool
        = (p.closeSession sid pageCloseFails ctxCloseFails).pool := by
  have hsecond : lookupSession
      (p.closeSession sid pageCloseFails ctxCloseFails).pool.activeSessions sid = none := by
    cases hl : lookupSession p.activeSessions sid with
    | none => rw [closeSession_of_none p sid pageCloseFails ctxCloseFails hl]; exact hl
    | some s =>
        rw [closeSession_of_some p sid pageCloseFails ctxCloseFails hl]
        exact lookupSession_remove_self _ _
  refine ⟨?_, ?_, ?_, ?_⟩
  · intro s hl
    rw [closeSession_of_some p sid pageCloseFails ctxCloseFails hl]
    exact ⟨rfl, rfl, lookupSession_remove_self _ _,
      fun sid2 h2 => lookupSession_remove_other _ _ h2⟩
  · intro hl
    rw [closeSession_of_none p sid pageCloseFails ctxCloseFails hl]
    exact ⟨rfl, rfl⟩
  · rw [closeSession_of_none _ sid pageCloseFails ctxCloseFails hsecond]
  · rw [closeSession_of_none _ sid pageCloseFails ctxCloseFails hsecond]

/-- Concrete close: session 1 of `demoPagePool` (one page, id 2) closes
with page-close and context-close engine calls, returns true, disappears
from the table, and a second close returns false. -/
theorem closeSession_spec_witness :
    (demoPagePool.closeSession 1 (fun _ => false) false).result = .ok true
    ∧ (demoPagePool.closeSession 1 (fun _ => false) false).engineCalls
        = [EngineCall.closePageCall 2, EngineCall.closeContextCall]
    ∧ lookupSession
        (demoPagePool.closeSession 1 (fun _ => false) false).pool.activeSessions 1 = none
    ∧ ((demoPagePool.closeSession 1 (fun _ => false) false).pool.closeSession 1
        (fun _ => false) false).result = .ok false := by
  have h := closeSession_spec demoPagePool 1 (fun _ => false) false
  have h1 := h.1 demoSession1 (by decide)
  refine ⟨h1.1, ?_, h1.2.2.1, h.2.2.1⟩
  rw [h1.2.1]
  decide

/-- C9: `closeSession` on an existing session never lets an engine error
escape — for every combination of page-close and context-close failures,
`session.close()` returns normally (with the page table cleared), and the
session is still removed with `true` returned. -/
theorem closeSession_swallows_engine_errors (p : BrowserPool) (sid : Nat)
    (s : BrowserSession) (h : lookupSession p.activeSessions sid = some s) :
    ∀ (pageCloseFails : Nat → Bool) (ctxCloseFails : Bool),
      s.closeRun pageCloseFails ctxCloseFails
        = .ok ({ s with pages := [] },
               s.pages.map EngineCall.closePageCall ++ [EngineCall.closeContextCall])
      ∧ (p.closeSession sid pageCloseFails ctxCloseFails).result = .ok true
      ∧ lookupSession
          (p.closeSession sid pageCloseFails ctxCloseFails).pool.activeSessions sid
          = none := by
  intro pageCloseFails ctxCloseFails
  refine ⟨closeRun_eq s pageCloseFails ctxCloseFails, ?_, ?_⟩
  · rw [closeSession_of_some p sid pageCloseFails ctxCloseFails h]
  · rw [closeSession_of_some p sid pageCloseFails ctxCloseFails h]
    exact lookupSession_remove_self _ _

/-- Concrete run in which every engine call fails: the session is still
removed and true returned. -/
theorem closeSession_swallows_engine_errors_witness :
    (demoPagePool.closeSession 1 (fun _ => true) true).result = .ok true
    ∧ lookupSession
        (demoPagePool.closeSession 1 (fun _ => true) true).pool.activeSessions 1
        = none := by
  have h := closeSession_swallows_engine_errors demoPagePool 1 demoSession1
    (by decide) (fun _ => true) true
  exact ⟨h.2.1, h.2.2⟩

/-- C6: `createPage` fails `NotFound` exactly when the session id is
absent; with a url it issues the navigation with the configured
`MAX_PAGE_LOAD_TIME` timeout, and a navigation failure raises an error
while the session survives in the active table. -/
theorem createPage_spec (p : BrowserPool) (sid : Nat) (url : Option String)
    (now : Nat) (navOk : Bool) :
    ((p.createPage sid url now navOk).result = .error .NotFound
        ↔ lookupSession p.activeSessions sid = none)
    ∧ (∀ u s, url = some u → lookupSession p.activeSessions sid = some s →
        EngineCall.gotoCall u (some (p.maxPageLoadTime * 1000))
          ∈ (p.createPage sid url now navOk).engineCalls)
    ∧ (∀ u s, url = some u → lookupSession p.activeSessions sid = some s →
        navOk = false →
        (p.createPage sid url now navOk).result = .error .NavigationFailure
        ∧ (lookupSession
            (p.createPage sid url now navOk).pool.activeSessions sid).isSome) := by
  refine ⟨?_, ?_, ?_⟩
  · constructor
    · intro herr
      cases hl : lookupSession p.activeSessions sid with
      | none => rfl
      | some s =>
          rw [createPage_result_of_some p sid url now navOk hl] at herr
          cases url with
          | none => simp at herr
          | some u =>
              by_cases hn : navOk <;> simp [hn] at herr
    · intro hl
      rw [createPage_of_none p sid url now navOk hl]
  · intro u s hu hl
    subst hu
    rw [createPage_calls_of_some p sid (some u) now navOk hl]
    simp
  · intro u s hu hl hn
    subst hu
    subst hn
    constructor
    · rw [createPage_result_of_some p sid (some u) now false hl]
      simp
    · rw [createPage_pool_of_some p sid (some u) now false hl]
      simp only
      rw [lookupSession_update_self hl]
      rfl

/-- Concrete createPage behaviour on `demoFullPool`: unknown session 9
fails NotFound; session 1 with a url issues goto with the 30000 ms
configured timeout; failed navigation raises while session 1 survives. -/
theorem createPage_spec_witness :
    (demoFullPool.createPage 9 (some "a") 6 true).result = .error .NotFound
    ∧ EngineCall.gotoCall "a" (some 30000)
        ∈ (demoFullPool.createPage 1 (some "a") 6 true).engineCalls
    ∧ (demoFullPool.createPage 1 (some "a") 6 false).result = .error .NavigationFailure
    ∧ (lookupSession
        (demoFullPool.createPage 1 (some "a") 6 false).pool.activeSessions 1).isSome := by
  have h9 := (createPage_spec demoFullPool 9 (some "a") 6 true).1
  have h1 := (createPage_spec demoFullPool 1 (some "a") 6 true).2.1 "a" demoSession0
    rfl (by decide)
  have h2 := (createPage_spec demoFullPool 1 (some "a") 6 false).2.2 "a" demoSession0
    rfl (by decide) rfl
  exact ⟨h9.mpr (by decide), by simpa using h1, h2.1, h2.2⟩

/-- C10: `createPage` is not atomic on navigation failure — the page is
registered (and `lastActivity` advanced) before navigation, so a failed
navigation raises without returning the page id while the page remains in
the session's table. -/
theorem createPage_nav_failure_not_atomic (p : BrowserPool) (sid : Nat) (u : String)
    (now : Nat) {s : BrowserSession}
    (h : lookupSession p.activeSessions sid = some s) :
    (p.createPage sid (some u) now false).result = .error .NavigationFailure
    ∧ lookupSession (p.createPage sid (some u) now false).pool.activeSessions sid
        = some { s with pages := s.pages ++ [p.nextId], lastActivity := now } := by
  constructor
  · rw [createPage_result_of_some p sid (some u) now false h]
    simp
  · rw [createPage_pool_of_some p sid (some u) now false h]
    simp only
    exact lookupSession_update_self h _

/-- Concrete failed navigation in `demoFullPool`: no page id is returned,
yet page 2 is left registered in session 1 with `lastActivity` advanced. -/
theorem createPage_nav_failure_witness :
    (demoFullPool.createPage 1 (some "b") 7 false).result = .error .NavigationFailure
    ∧ lookupSession
        (demoFullPool.createPage 1 (some "b") 7 false).pool.activeSessions 1
        = some { sessionId := 1, engineId := 0, createdAt := 5, lastActivity := 7,
                 pages := [2], metadata := [] } := by
  have h := createPage_nav_failure_not_atomic demoFullPool 1 "b" 7
    (show lookupSession demoFullPool.activeSessions 1 = some demoSession0 by decide)
  refine ⟨h.1, ?_⟩
  rw [h.2]
  decide

/-!  Engine disconnection (claim C4) and plane equivalence (claim C5). -/

/-- C4 (code behaviour at the claimed divergence): the `disconnected`
handler removes the engine from the list and nothing more — from a full
healthy pool of 2 engines the pool drops below its configured size and the
resulting state is exactly the old one minus the engine, with no
replacement launch recorded anywhere. -/
theorem disconnect_no_replacement :
    ((BrowserPool.start 2 300 30).onBrowserDisconnected 0).browsers.length
        < (BrowserPool.start 2 300 30).maxBrowsers
    ∧ (BrowserPool.start 2 300 30).onBrowserDisconnected 0
        = { BrowserPool.start 2 300 30 with browsers := [1] } := by
  decide

/-- C5 counterexample: the same `create-session` action issued through the
event plane and through the synchronous plane produces different broadcast
lists (the event plane adds a `browser.create-session` broadcast). -/
theorem plane_broadcasts_differ :
    (wsHandleBrowserAction (BrowserPool.start 2 300 30)
        (.createSessionA none []) 5).broadcasts
      ≠ (grpcHandleAction (BrowserPool.start 2 300 30)
          (.createSessionA none []) 5).broadcasts := by
  decide

theorem svcCreateSession_of_ok {p : BrowserPool} {now : Nat} {userId : Option String}
    {metadata : List (String × String)} {sid : Nat}
    (h : (p.createSession now userId metadata).result = .ok sid) :
    svcCreateSession p now userId metadata
      = ⟨(p.createSession now userId metadata).pool, .ok sid,
          [Broadcast.sessionCreated sid metadata]⟩ := by
  simp only [svcCreateSession, h]

theorem svcCreateSession_of_error {p : BrowserPool} {now : Nat} {userId : Option String}
    {metadata : List (String × String)} {e : PoolError}
    (h : (p.createSession now userId metadata).result = .error e) :
    svcCreateSession p now userId metadata
      = ⟨(p.createSession now userId metadata).pool, .error e, []⟩ := by
  simp only [svcCreateSession, h]

theorem svcCreatePage_of_ok {p : BrowserPool} {sid : Nat} {url : Option String}
    {now : Nat} {navOk : Bool} {pid : Nat}
    (h : (p.createPage sid url now navOk).result = .ok pid) :
    svcCreatePage p sid url now navOk
      = ⟨(p.createPage sid url now navOk).pool, .ok pid,
          [Broadcast.pageCreated sid pid url]⟩ := by
  simp only [svcCreatePage, h]

theorem svcCreatePage_of_error {p : BrowserPool} {sid : Nat} {url : Option String}
    {now : Nat} {navOk : Bool} {e : PoolError}
    (h : (p.createPage sid url now navOk).result = .error e) :
    svcCreatePage p sid url now navOk
      = ⟨(p.createPage sid url now navOk).pool, .error e, []⟩ := by
  simp only [svcCreatePage, h]

/-- C5 amended: the two planes are two ingress routes into one state
machine — a verb issued through either produces the identical pool state
transition and the identical lifecycle broadcasts — but the event plane
additionally emits one `browser.<action>` broadcast per successful
action. -/
theorem planes_agree_up_to_action_broadcast (p : BrowserPool) (act : WsAction)
    (now : Nat) :
    (wsHandleBrowserAction p act now).pool = (grpcHandleAction p act now).pool
    ∧ (wsHandleBrowserAction p act now).broadcasts
        = (grpcHandleAction p act now).broadcasts
          ++ (if (wsHandleBrowserAction p act now).success then
                [Broadcast.browserAction (wsActionName act) (wsActionSessionId act)
                  (wsActionPageId act)]
              else []) := by
  cases act with
  | createSessionA userId metadata =>
      cases h : (p.createSession now userId metadata).result with
      | ok sid =>
          simp [wsHandleBrowserAction, grpcHandleAction, svcCreateSession_of_ok h]
      | error e =>
          simp [wsHandleBrowserAction, grpcHandleAction, svcCreateSession_of_error h]
  | createPageA sid url navOk =>
      cases h : (p.createPage sid url now navOk).result with
      | ok pid =>
          simp [wsHandleBrowserAction, grpcHandleAction, svcCreatePage_of_ok h]
      | error e =>
          simp [wsHandleBrowserAction, grpcHandleAction, svcCreatePage_of_error h]
  | navigateA sid pid u navOk =>
      simp only [wsHandleBrowserAction, grpcHandleAction]
      by_cases hf : (p.getPage sid pid now).found <;> by_cases hn : navOk <;>
        simp [hf, hn]
  | clickA sid pid sel clickOk =>
      simp only [wsHandleBrowserAction, grpcHandleAction]
      by_cases hf : (p.getPage sid pid now).found <;> by_cases hn : clickOk <;>
        simp [hf, hn]
  | typeA sid pid sel txt fillOk =>
      simp only [wsHandleBrowserAction, grpcHandleAction]
      by_cases hf : (p.getPage sid pid now).found <;> by_cases hn : fillOk <;>
        simp [hf, hn]

/-!  Activity tracking (claim C8): definitions. -/

/-- Every session's `lastActivity` is at most `t`. -/
def ActivityBound (p : BrowserPool) (t : Nat) : Prop :=
  ∀ e ∈ p.activeSessions, e.2.lastActivity ≤ t

/-- Reachable-state well-formedness of the session table: unique keys and
keys below the fresh-id counter. -/
def KeysOk (p : BrowserPool) : Prop :=
  (p.activeSessions.map Prod.fst).Nodup
  ∧ ∀ k ∈ p.activeSessions.map Prod.fst, k < p.nextId

/-- The wall-clock instant at which an operation runs, when it reads the
clock at all (`new Date()`). -/
def opTimeOpt : PoolOp → Option Nat
  | .createSessionOp now _ _ => some now
  | .closeSessionOp _ _ _ => none
  | .getSessionOp _ now => some now
  | .createPageOp _ _ now _ => some now
  | .getPageOp _ _ now => some now
  | .closePageOp _ _ now _ => some now
  | .reapOp _ _ _ => none
  | .disconnectOp _ => none

/-- The operation runs no earlier than `t`. -/
def OpAfter (t : Nat) (op : PoolOp) : Prop :=
  match opTimeOpt op with
  | some now => t ≤ now
  | none => True

/-- The clock value after the operation. -/
def opEnd (t : Nat) (op : PoolOp) : Nat :=
  match opTimeOpt op with
  | some now => now
  | none => t

/-- The operations run at non-decreasing wall-clock times starting
from `t`. -/
def TimesMono : Nat → List PoolOp → Prop
  | _, [] => True
  | t, op :: rest => OpAfter t op ∧ TimesMono (opEnd t op) rest

theorem le_opEnd {t : Nat} {op : PoolOp} (h : OpAfter t op) : t ≤ opEnd t op := by
  cases op <;> simp only [OpAfter, opTimeOpt, opEnd] at * <;> omega

/-!  Activity tracking: association-list support lemmas. -/

theorem lookupSession_append_of_some {l l2 : List (Nat × BrowserSession)} {sid : Nat}
    {s : BrowserSession} (h : lookupSession l sid = some s) :
    lookupSession (l ++ l2) sid = some s := by
  induction l with
  | nil => simp [lookupSession] at h
  | cons e rest ih =>
      rw [lookupSession_cons] at h
      rw [List.cons_append, lookupSession_cons]
      by_cases he : e.1 = sid
      · rw [if_pos he] at h
        rw [if_pos he]
        exact h
      · rw [if_neg he] at h
        rw [if_neg he]
        exact ih h

theorem lookupSession_append_single_of_none {l : List (Nat × BrowserSession)}
    {sid : Nat} (h : lookupSession l sid = none) (k : Nat) (v : BrowserSession) :
    lookupSession (l ++ [(k, v)]) sid = if k = sid then some v else none := by
  induction l with
  | nil =>
      rw [List.nil_append, lookupSession_cons]
      by_cases hk : k = sid <;> simp [hk, lookupSession]
  | cons e rest ih =>
      rw [lookupSession_cons] at h
      rw [List.cons_append, lookupSession_cons]
      by_cases he : e.1 = sid
      · rw [if_pos he] at h
        simp at h
      · rw [if_neg he] at h
        rw [if_neg he]
        exact ih h

theorem lookupSession_eq_of_mem_nodup {l : List (Nat × BrowserSession)}
    (hnd : (l.map Prod.fst).Nodup) {k : Nat} {v : BrowserSession}
    (h : (k, v) ∈ l) : lookupSession l k = some v := by
  induction l with
  | nil => simp at h
  | cons e rest ih =>
      rw [lookupSession_cons]
      rw [List.map_cons] at hnd
      rcases List.mem_cons.mp h with heq | hmem
      · rw [← heq]
        simp
      · have hk : k ∈ rest.map Prod.fst :=
          List.mem_map.mpr ⟨(k, v), hmem, rfl⟩
        have hne : e.1 ≠ k := fun hc => (List.nodup_cons.mp hnd).1 (hc ▸ hk)
        rw [if_neg hne]
        exact ih (List.nodup_cons.mp hnd).2 hmem

theorem mem_updateSession {l : List (Nat × BrowserSession)} {k : Nat}
    {v : BrowserSession} {e : Nat × BrowserSession}
    (h : e ∈ updateSession l k v) : e ∈ l ∨ e.2 = v := by
  simp only [updateSession, List.mem_map] at h
  obtain ⟨e0, he0, heq⟩ := h
  by_cases hk : (e0.1 == k) = true
  · rw [if_pos hk] at heq
    right
    rw [← heq]
  · rw [if_neg hk] at heq
    left
    rw [← heq]
    exact he0

theorem removePage_lastActivity (s : BrowserSession) (pid now : Nat) :
    ((s.removePage pid now).1).lastActivity = now
    ∨ ((s.removePage pid now).1).lastActivity = s.lastActivity := by
  simp only [BrowserSession.removePage]
  split
  · left
    rfl
  · right
    rfl

theorem closeSession_pool_sessions_sublist (p : BrowserPool) (sid : Nat)
    (pageCloseFails : Nat → Bool) (ctxCloseFails : Bool) :
    ((p.closeSession sid pageCloseFails ctxCloseFails).pool.activeSessions).Sublist
      p.activeSessions := by
  cases h : lookupSession p.activeSessions sid with
  | none =>
      rw [closeSession_of_none p sid pageCloseFails ctxCloseFails h]
  | some s =>
      rw [closeSession_of_some p sid pageCloseFails ctxCloseFails h]
      exact removeSession_sublist _ _

theorem closeSession_pool_nextId (p : BrowserPool) (sid : Nat)
    (pageCloseFails : Nat → Bool) (ctxCloseFails : Bool) :
    (p.closeSession sid pageCloseFails ctxCloseFails).pool.nextId = p.nextId := by
  cases h : lookupSession p.activeSessions sid with
  | none => rw [closeSession_of_none p sid pageCloseFails ctxCloseFails h]
  | some s => rw [closeSession_of_some p sid pageCloseFails ctxCloseFails h]

theorem closeSessionsLoop_sessions_sublist (ids : List Nat) (p : BrowserPool)
    (acc : List Broadcast) (pageCloseFails : Nat → Bool) (ctxCloseFails : Bool) :
    ((closeSessionsLoop p ids acc pageCloseFails ctxCloseFails).1.activeSessions).Sublist
      p.activeSessions := by
  induction ids generalizing p acc with
  | nil => simp [closeSessionsLoop]
  | cons sid rest ih =>
      simp only [closeSessionsLoop]
      refine List.Sublist.trans (ih _ _) ?_
      rw [svcCloseSession_pool]
      exact closeSession_pool_sessions_sublist p sid pageCloseFails ctxCloseFails

theorem closeSessionsLoop_nextId (ids : List Nat) (p : BrowserPool)
    (acc : List Broadcast) (pageCloseFails : Nat → Bool) (ctxCloseFails : Bool) :
    (closeSessionsLoop p ids acc pageCloseFails ctxCloseFails).1.nextId = p.nextId := by
  induction ids generalizing p acc with
  | nil => simp [closeSessionsLoop]
  | cons sid rest ih =>
      simp only [closeSessionsLoop]
      rw [ih, svcCloseSession_pool]
      exact closeSession_pool_nextId p sid pageCloseFails ctxCloseFails

/-!  Activity tracking: the bound is preserved by every operation. -/

theorem applyOp_activityBound (p : BrowserPool) (op : PoolOp) (t : Nat)
    (hb : ActivityBound p t) (ha : OpAfter t op) :
    ActivityBound (applyOp p op) (opEnd t op) := by
  cases op with
  | createSessionOp now userId metadata =>
      have hnow : t ≤ now := ha
      intro e he
      simp only [applyOp] at he
      simp only [opEnd, opTimeOpt]
      by_cases hf : p.maxBrowsers ≤ p.activeSessions.length
      · rw [createSession_of_full p now userId metadata hf] at he
        exact le_trans (hb e he) hnow
      · rw [createSession_of_avail p now userId metadata (by omega)] at he
        simp only at he
        rcases List.mem_append.mp he with h1 | h1
        · exact le_trans (hb e h1) hnow
        · simp only [List.mem_singleton] at h1
          rw [h1]
          exact le_refl now
  | getSessionOp sid now =>
      have hnow : t ≤ now := ha
      intro e he
      simp only [applyOp] at he
      simp only [opEnd, opTimeOpt]
      cases hl : lookupSession p.activeSessions sid with
      | none =>
          rw [getSession_of_none p sid now hl] at he
          exact le_trans (hb e he) hnow
      | some s0 =>
          rw [getSession_of_some p sid now hl] at he
          simp only at he
          rcases mem_updateSession he with h1 | h1
          · exact le_trans (hb e h1) hnow
          · rw [h1]
  | createPageOp sid url now navOk =>
      have hnow : t ≤ now := ha
      intro e he
      simp only [applyOp] at he
      simp only [opEnd, opTimeOpt]
      cases hl : lookupSession p.activeSessions sid with
      | none =>
          rw [createPage_of_none p sid url now navOk hl] at he
          exact le_trans (hb e he) hnow
      | some s0 =>
          rw [createPage_pool_of_some p sid url now navOk hl] at he
          simp only at he
          rcases mem_updateSession he with h1 | h1
          · exact le_trans (hb e h1) hnow
          · rw [h1]
  | getPageOp sid pid now =>
      have hnow : t ≤ now := ha
      intro e he
      simp only [applyOp] at he
      rw [getPage_pool] at he
      simp only [opEnd, opTimeOpt]
      cases hl : lookupSession p.activeSessions sid with
      | none =>
          rw [getSession_of_none p sid now hl] at he
          exact le_trans (hb e he) hnow
      | some s0 =>
          rw [getSession_of_some p sid now hl] at he
          simp only at he
          rcases mem_updateSession he with h1 | h1
          · exact le_trans (hb e h1) hnow
          · rw [h1]
  | closePageOp sid pid now pageCloseFails =>
      have hnow : t ≤ now := ha
      have hbound : ∀ x ∈ (p.getSession sid now).pool.activeSessions,
          x.2.lastActivity ≤ now := by
        intro x hx
        cases hl : lookupSession p.activeSessions sid with
        | none =>
            rw [getSession_of_none p sid now hl] at hx
            exact le_trans (hb x hx) hnow
        | some s0 =>
            rw [getSession_of_some p sid now hl] at hx
            simp only at hx
            rcases mem_updateSession hx with h1 | h1
            · exact le_trans (hb x h1) hnow
            · rw [h1]
      intro e he
      simp only [applyOp, BrowserPool.closePage] at he
      simp only [opEnd, opTimeOpt]
      cases hgs : (p.getSession sid now).session with
      | none =>
          rw [hgs] at he
          exact hbound e he
      | some s0 =>
          have hs0 : s0.lastActivity = now := by
            cases hl : lookupSession p.activeSessions sid with
            | none =>
                rw [getSession_of_none p sid now hl] at hgs
                cases hgs
            | some s1 =>
                rw [getSession_of_some p sid now hl] at hgs
                simp only at hgs
                injection hgs with hgs
                rw [← hgs]
          rw [hgs] at he
          simp only at he
          by_cases hp : s0.hasPage pid
          · by_cases hfail : pageCloseFails
            · simp only [hp, hfail, if_true] at he
              exact hbound e he
            · simp only [hp, hfail, Bool.false_eq_true, if_true, if_false] at he
              rcases mem_updateSession he with h1 | h1
              · exact hbound e h1
              · rw [h1]
                rcases removePage_lastActivity s0 pid now with h2 | h2
                · rw [h2]
                · rw [h2, hs0]
          · simp only [hp, Bool.false_eq_true, if_false] at he
            exact hbound e he
  | closeSessionOp sid pageCloseFails ctxCloseFails =>
      intro e he
      simp only [applyOp] at he
      simp only [opEnd, opTimeOpt]
      exact hb e
        ((closeSession_pool_sessions_sublist p sid pageCloseFails ctxCloseFails).subset he)
  | reapOp now pageCloseFails ctxCloseFails =>
      intro e he
      simp only [applyOp, BrowserPool.cleanupExpiredSessions] at he
      simp only [opEnd, opTimeOpt]
      exact hb e ((closeSessionsLoop_sessions_sublist _ _ _ _ _).subset he)
  | disconnectOp b =>
      intro e he
      simp only [applyOp] at he
      rw [onBrowserDisconnected_sessions] at he
      simp only [opEnd, opTimeOpt]
      exact hb e he

/-!  Activity tracking: table well-formedness is preserved. -/

theorem getSession_pool_keys (p : BrowserPool) (sid now : Nat) :
    (p.getSession sid now).pool.activeSessions.map Prod.fst
      = p.activeSessions.map Prod.fst := by
  cases hl : lookupSession p.activeSessions sid with
  | none => rw [getSession_of_none p sid now hl]
  | some s =>
      rw [getSession_of_some p sid now hl]
      exact updateSession_keys _ _ _

theorem getSession_pool_nextId (p : BrowserPool) (sid now : Nat) :
    (p.getSession sid now).pool.nextId = p.nextId := by
  cases hl : lookupSession p.activeSessions sid with
  | none => rw [getSession_of_none p sid now hl]
  | some s => rw [getSession_of_some p sid now hl]

theorem closePage_pool_keys (p : BrowserPool) (sid pid now : Nat) (pageCloseFails : Bool) :
    (p.closePage sid pid now pageCloseFails).pool.activeSessions.map Prod.fst
      = p.activeSessions.map Prod.fst := by
  simp only [BrowserPool.closePage]
  cases hgs : (p.getSession sid now).session with
  | none =>
      exact getSession_pool_keys p sid now
  | some s0 =>
      simp only
      by_cases hp : s0.hasPage pid
      · by_cases hf : pageCloseFails
        · simp only [hp, hf, if_true]
          exact getSession_pool_keys p sid now
        · simp only [hp, hf, Bool.false_eq_true, if_true, if_false]
          show (updateSession _ _ _).map Prod.fst = _
          rw [updateSession_keys]
          exact getSession_pool_keys p sid now
      · simp only [hp, Bool.false_eq_true, if_false]
        exact getSession_pool_keys p sid now

theorem closePage_pool_nextId (p : BrowserPool) (sid pid now : Nat)
    (pageCloseFails : Bool) :
    (p.closePage sid pid now pageCloseFails).pool.nextId = p.nextId := by
  simp only [BrowserPool.closePage]
  cases hgs : (p.getSession sid now).session with
  | none =>
      exact getSession_pool_nextId p sid now
  | some s0 =>
      simp only
      by_cases hp : s0.hasPage pid
      · by_cases hf : pageCloseFails
        · simp only [hp, hf, if_true]
          exact getSession_pool_nextId p sid now
        · simp only [hp, hf, Bool.false_eq_true, if_true, if_false]
          exact getSession_pool_nextId p sid now
      · simp only [hp, Bool.false_eq_true, if_false]
        exact getSession_pool_nextId p sid now

theorem onBrowserDisconnected_nextId (p : BrowserPool) (b : Nat) :
    (p.onBrowserDisconnected b).nextId = p.nextId := by
  simp only [BrowserPool.onBrowserDisconnected]
  split <;> rfl

theorem nextId_le_freshSessionId (p : BrowserPool) : p.nextId ≤ freshSessionId p := by
  simp only [freshSessionId]
  split <;> omega

theorem applyOp_keysOk (p : BrowserPool) (op : PoolOp) (hk : KeysOk p) :
    KeysOk (applyOp p op) := by
  obtain ⟨hnd, hfr⟩ := hk
  cases op with
  | createSessionOp now userId metadata =>
      by_cases hf : p.maxBrowsers ≤ p.activeSessions.length
      · constructor
        · simp only [applyOp]
          rw [createSession_of_full p now userId metadata hf]
          exact hnd
        · simp only [applyOp]
          rw [createSession_of_full p now userId metadata hf]
          exact hfr
      · have hfid : freshSessionId p ∉ p.activeSessions.map Prod.fst := by
          intro hmem
          have h1 := hfr _ hmem
          have h2 := nextId_le_freshSessionId p
          omega
        constructor
        · simp only [applyOp]
          rw [createSession_of_avail p now userId metadata (by omega)]
          show ((p.activeSessions ++ _).map Prod.fst).Nodup
          rw [List.map_append]
          refine List.Nodup.append hnd (List.nodup_singleton _) ?_
          intro a ha hb
          simp only [List.map_cons, List.map_nil, List.mem_singleton] at hb
          rw [hb] at ha
          exact hfid ha
        · simp only [applyOp]
          rw [createSession_of_avail p now userId metadata (by omega)]
          show ∀ k ∈ (p.activeSessions ++ _).map Prod.fst, k < freshSessionId p + 1
          intro k hkm
          rw [List.map_append] at hkm
          rcases List.mem_append.mp hkm with h1 | h1
          · have := hfr k h1
            have h2 := nextId_le_freshSessionId p
            omega
          · simp only [List.map_cons, List.map_nil, List.mem_singleton] at h1
            omega
  | getSessionOp sid now =>
      constructor
      · simp only [applyOp]
        rw [getSession_pool_keys]
        exact hnd
      · simp only [applyOp]
        rw [getSession_pool_keys, getSession_pool_nextId]
        exact hfr
  | createPageOp sid url now navOk =>
      cases hl : lookupSession p.activeSessions sid with
      | none =>
          constructor
          · simp only [applyOp]
            rw [createPage_of_none p sid url now navOk hl]
            exact hnd
          · simp only [applyOp]
            rw [createPage_of_none p sid url now navOk hl]
            exact hfr
      | some s0 =>
          constructor
          · simp only [applyOp]
            rw [createPage_pool_of_some p sid url now navOk hl]
            show ((updateSession _ _ _).map Prod.fst).Nodup
            rw [updateSession_keys]
            exact hnd
          · simp only [applyOp]
            rw [createPage_pool_of_some p sid url now navOk hl]
            show ∀ k ∈ (updateSession _ _ _).map Prod.fst, k < p.nextId + 1
            intro k hkm
            rw [updateSession_keys] at hkm
            have := hfr k hkm
            omega
  | getPageOp sid pid now =>
      constructor
      · simp only [applyOp]
        rw [getPage_pool, getSession_pool_keys]
        exact hnd
      · simp only [applyOp]
        rw [getPage_pool, getSession_pool_keys, getSession_pool_nextId]
        exact hfr
  | closePageOp sid pid now pageCloseFails =>
      constructor
      · simp only [applyOp]
        rw [closePage_pool_keys]
        exact hnd
      · simp only [applyOp]
        rw [closePage_pool_keys, closePage_pool_nextId]
        exact hfr
  | closeSessionOp sid pageCloseFails ctxCloseFails =>
      constructor
      · simp only [applyOp]
        exact List.Nodup.sublist
          (List.Sublist.map Prod.fst
            (closeSession_pool_sessions_sublist p sid pageCloseFails ctxCloseFails)) hnd
      · simp only [applyOp]
        intro k hkm
        rw [closeSession_pool_nextId]
        exact hfr k ((List.Sublist.map Prod.fst
          (closeSession_pool_sessions_sublist p sid pageCloseFails ctxCloseFails)).subset hkm)
  | reapOp now pageCloseFails ctxCloseFails =>
      constructor
      · simp only [applyOp, BrowserPool.cleanupExpiredSessions]
        exact List.Nodup.sublist
          (List.Sublist.map Prod.fst (closeSessionsLoop_sessions_sublist _ _ _ _ _)) hnd
      · simp only [applyOp, BrowserPool.cleanupExpiredSessions]
        intro k hkm
        rw [closeSessionsLoop_nextId]
        exact hfr k ((List.Sublist.map Prod.fst
          (closeSessionsLoop_sessions_sublist _ _ _ _ _)).subset hkm)
  | disconnectOp b =>
      constructor
      · simp only [applyOp]
        rw [onBrowserDisconnected_sessions]
        exact hnd
      · simp only [applyOp]
        rw [onBrowserDisconnected_sessions, onBrowserDisconnected_nextId]
        exact hfr

/-!  Activity tracking: single-operation monotonicity. -/

theorem mono_of_update {l : List (Nat × BrowserSession)} {k : Nat} {v : BrowserSession}
    {sid : Nat} {s s2 : BrowserSession}
    (h1 : lookupSession l sid = some s)
    (h2 : lookupSession (updateSession l k v) sid = some s2)
    (hv : s.lastActivity ≤ v.lastActivity) :
    s.lastActivity ≤ s2.lastActivity := by
  by_cases hks : sid = k
  · subst hks
    rw [lookupSession_update_self h1 v] at h2
    injection h2 with h2
    rw [← h2]
    exact hv
  · rw [lookupSession_update_other l k v hks] at h2
    rw [h1] at h2
    injection h2 with h2
    rw [← h2]

theorem applyOp_lookup_mono (p : BrowserPool) (op : PoolOp) (t : Nat)
    (hk : KeysOk p) (hb : ActivityBound p t) (ha : OpAfter t op)
    {sid : Nat} {s s2 : BrowserSession}
    (h1 : lookupSession p.activeSessions sid = some s)
    (h2 : lookupSession (applyOp p op).activeSessions sid = some s2) :
    s.lastActivity ≤ s2.lastActivity := by
  have hst : s.lastActivity ≤ t := hb _ (mem_of_lookupSession h1)
  cases op with
  | createSessionOp now userId metadata =>
      have hnow : t ≤ now := ha
      simp only [applyOp] at h2
      by_cases hf : p.maxBrowsers ≤ p.activeSessions.length
      · rw [createSession_of_full p now userId metadata hf] at h2
        rw [h1] at h2
        injection h2 with h2
        rw [← h2]
      · rw [createSession_of_avail p now userId metadata (by omega)] at h2
        simp only at h2
        rw [lookupSession_append_of_some h1] at h2
        injection h2 with h2
        rw [← h2]
  | getSessionOp sid0 now =>
      have hnow : t ≤ now := ha
      simp only [applyOp] at h2
      cases hl : lookupSession p.activeSessions sid0 with
      | none =>
          rw [getSession_of_none p sid0 now hl] at h2
          rw [h1] at h2
          injection h2 with h2
          rw [← h2]
      | some s0 =>
          rw [getSession_of_some p sid0 now hl] at h2
          simp only at h2
          exact mono_of_update h1 h2 (le_trans hst hnow)
  | createPageOp sid0 url now navOk =>
      have hnow : t ≤ now := ha
      simp only [applyOp] at h2
      cases hl : lookupSession p.activeSessions sid0 with
      | none =>
          rw [createPage_of_none p sid0 url now navOk hl] at h2
          rw [h1] at h2
          injection h2 with h2
          rw [← h2]
      | some s0 =>
          rw [createPage_pool_of_some p sid0 url now navOk hl] at h2
          simp only at h2
          exact mono_of_update h1 h2 (le_trans hst hnow)
  | getPageOp sid0 pid now =>
      have hnow : t ≤ now := ha
      simp only [applyOp] at h2
      rw [getPage_pool] at h2
      cases hl : lookupSession p.activeSessions sid0 with
      | none =>
          rw [getSession_of_none p sid0 now hl] at h2
          rw [h1] at h2
          injection h2 with h2
          rw [← h2]
      | some s0 =>
          rw [getSession_of_some p sid0 now hl] at h2
          simp only at h2
          exact mono_of_update h1 h2 (le_trans hst hnow)
  | closePageOp sid0 pid now pageCloseFails =>
      have hnow : t ≤ now := ha
      simp only [applyOp, BrowserPool.closePage] at h2
      cases hl : lookupSession p.activeSessions sid0 with
      | none =>
          rw [getSession_of_none p sid0 now hl] at h2
          simp only at h2
          rw [h1] at h2
          injection h2 with h2
          rw [← h2]
      | some s0 =>
          rw [getSession_of_some p sid0 now hl] at h2
          simp only at h2
          by_cases hp : BrowserSession.hasPage { s0 with lastActivity := now } pid
          · by_cases hfail : pageCloseFails
            · simp only [hp, hfail, if_true] at h2
              exact mono_of_update h1 h2 (le_trans hst hnow)
            · simp only [hp, hfail, Bool.false_eq_true, if_true, if_false] at h2
              rw [updateSession_updateSession] at h2
              refine mono_of_update h1 h2 ?_
              rcases removePage_lastActivity { s0 with lastActivity := now } pid now
                with hr | hr
              · rw [hr]
                exact le_trans hst hnow
              · rw [hr]
                exact le_trans hst hnow
          · simp only [hp, Bool.false_eq_true, if_false] at h2
            exact mono_of_update h1 h2 (le_trans hst hnow)
  | closeSessionOp sid0 pageCloseFails ctxCloseFails =>
      simp only [applyOp] at h2
      cases hl : lookupSession p.activeSessions sid0 with
      | none =>
          rw [closeSession_of_none p sid0 pageCloseFails ctxCloseFails hl] at h2
          rw [h1] at h2
          injection h2 with h2
          rw [← h2]
      | some s0 =>
          rw [closeSession_of_some p sid0 pageCloseFails ctxCloseFails hl] at h2
          simp only at h2
          by_cases hks : sid = sid0
          · subst hks
            rw [lookupSession_remove_self] at h2
            cases h2
          · rw [lookupSession_remove_other _ _ hks] at h2
            rw [h1] at h2
            injection h2 with h2
            rw [← h2]
  | reapOp now pageCloseFails ctxCloseFails =>
      simp only [applyOp, BrowserPool.cleanupExpiredSessions] at h2
      have hmem := mem_of_lookupSession h2
      have hmem2 := (closeSessionsLoop_sessions_sublist _ _ _ _ _).subset hmem
      have := lookupSession_eq_of_mem_nodup hk.1 hmem2
      rw [h1] at this
      injection this with h3
      rw [h3]
  | disconnectOp b =>
      simp only [applyOp] at h2
      rw [onBrowserDisconnected_sessions] at h2
      rw [h1] at h2
      injection h2 with h2
      rw [← h2]

theorem applyOp_lookup_new (p : BrowserPool) (op : PoolOp) (t : Nat)
    (ha : OpAfter t op) {sid : Nat} {s2 : BrowserSession}
    (h0 : lookupSession p.activeSessions sid = none)
    (h2 : lookupSession (applyOp p op).activeSessions sid = some s2) :
    t ≤ s2.lastActivity := by
  cases op with
  | createSessionOp now userId metadata =>
      have hnow : t ≤ now := ha
      simp only [applyOp] at h2
      by_cases hf : p.maxBrowsers ≤ p.activeSessions.length
      · rw [createSession_of_full p now userId metadata hf] at h2
        rw [h0] at h2
        cases h2
      · rw [createSession_of_avail p now userId metadata (by omega)] at h2
        simp only at h2
        rw [lookupSession_append_single_of_none h0] at h2
        by_cases hfid : freshSessionId p = sid
        · rw [if_pos hfid] at h2
          injection h2 with h2
          rw [← h2]
          exact hnow
        · rw [if_neg hfid] at h2
          cases h2
  | getSessionOp sid0 now =>
      simp only [applyOp] at h2
      cases hl : lookupSession p.activeSessions sid0 with
      | none =>
          rw [getSession_of_none p sid0 now hl] at h2
          rw [h0] at h2
          cases h2
      | some s0 =>
          rw [getSession_of_some p sid0 now hl] at h2
          simp only at h2
          have hne : sid ≠ sid0 := by
            intro hc
            rw [hc, hl] at h0
            cases h0
          rw [lookupSession_update_other _ _ _ hne] at h2
          rw [h0] at h2
          cases h2
  | createPageOp sid0 url now navOk =>
      simp only [applyOp] at h2
      cases hl : lookupSession p.activeSessions sid0 with
      | none =>
          rw [createPage_of_none p sid0 url now navOk hl] at h2
          rw [h0] at h2
          cases h2
      | some s0 =>
          rw [createPage_pool_of_some p sid0 url now navOk hl] at h2
          simp only at h2
          have hne : sid ≠ sid0 := by
            intro hc
            rw [hc, hl] at h0
            cases h0
          rw [lookupSession_update_other _ _ _ hne] at h2
          rw [h0] at h2
          cases h2
  | getPageOp sid0 pid now =>
      simp only [applyOp] at h2
      rw [getPage_pool] at h2
      cases hl : lookupSession p.activeSessions sid0 with
      | none =>
          rw [getSession_of_none p sid0 now hl] at h2
          rw [h0] at h2
          cases h2
      | some s0 =>
          rw [getSession_of_some p sid0 now hl] at h2
          simp only at h2
          have hne : sid ≠ sid0 := by
            intro hc
            rw [hc, hl] at h0
            cases h0
          rw [lookupSession_update_other _ _ _ hne] at h2
          rw [h0] at h2
          cases h2
  | closePageOp sid0 pid now pageCloseFails =>
      simp only [applyOp, BrowserPool.closePage] at h2
      cases hl : lookupSession p.activeSessions sid0 with
      | none =>
          rw [getSession_of_none p sid0 now hl] at h2
          simp only at h2
          rw [h0] at h2
          cases h2
      | some s0 =>
          rw [getSession_of_some p sid0 now hl] at h2
          simp only at h2
          have hne : sid ≠ sid0 := by
            intro hc
            rw [hc, hl] at h0
            cases h0
          by_cases hp : BrowserSession.hasPage { s0 with lastActivity := now } pid
          · by_cases hfail : pageCloseFails
            · simp only [hp, hfail, if_true] at h2
              rw [lookupSession_update_other _ _ _ hne] at h2
              rw [h0] at h2
              cases h2
            · simp only [hp, hfail, Bool.false_eq_true, if_true, if_false] at h2
              rw [updateSession_updateSession] at h2
              rw [lookupSession_update_other _ _ _ hne] at h2
              rw [h0] at h2
              cases h2
          · simp only [hp, Bool.false_eq_true, if_false] at h2
            rw [lookupSession_update_other _ _ _ hne] at h2
            rw [h0] at h2
            cases h2
  | closeSessionOp sid0 pageCloseFails ctxCloseFails =>
      simp only [applyOp] at h2
      cases hl : lookupSession p.activeSessions sid0 with
      | none =>
          rw [closeSession_of_none p sid0 pageCloseFails ctxCloseFails hl] at h2
          rw [h0] at h2
          cases h2
      | some s0 =>
          rw [closeSession_of_some p sid0 pageCloseFails ctxCloseFails hl] at h2
          simp only at h2
          by_cases hks : sid = sid0
          · subst hks
            rw [lookupSession_remove_self] at h2
            cases h2
          · rw [lookupSession_remove_other _ _ hks] at h2
            rw [h0] at h2
            cases h2
  | reapOp now pageCloseFails ctxCloseFails =>
      simp only [applyOp, BrowserPool.cleanupExpiredSessions] at h2
      have hmem := mem_of_lookupSession h2
      have hmem2 := (closeSessionsLoop_sessions_sublist _ _ _ _ _).subset hmem
      have hkeys : sid ∈ p.activeSessions.map Prod.fst :=
        List.mem_map.mpr ⟨(sid, s2), hmem2, rfl⟩
      rw [lookupSession_eq_none_iff] at h0
      exact absurd hkeys h0
  | disconnectOp b =>
      simp only [applyOp] at h2
      rw [onBrowserDisconnected_sessions] at h2
      rw [h0] at h2
      cases h2

/-!  Activity tracking: the sequence lemma and claim C8. -/

theorem applyOps_mono_aux (ops : List PoolOp) (p : BrowserPool) (t : Nat)
    (hk : KeysOk p) (hb : ActivityBound p t) (hm : TimesMono t ops) (sid : Nat) :
    (∀ s s2, lookupSession p.activeSessions sid = some s →
       lookupSession (applyOps p ops).activeSessions sid = some s2 →
       s.lastActivity ≤ s2.lastActivity)
    ∧ (∀ s2, lookupSession p.activeSessions sid = none →
       lookupSession (applyOps p ops).activeSessions sid = some s2 →
       t ≤ s2.lastActivity) := by
  induction ops generalizing p t with
  | nil =>
      constructor
      · intro s s2 h1 h2
        simp only [applyOps] at h2
        rw [h1] at h2
        injection h2 with h2
        rw [← h2]
      · intro s2 h0 h2
        simp only [applyOps] at h2
        rw [h0] at h2
        cases h2
  | cons op rest ih =>
      obtain ⟨ha, hm2⟩ := hm
      have hk1 := applyOp_keysOk p op hk
      have hb1 := applyOp_activityBound p op t hb ha
      have ihx := ih (applyOp p op) (opEnd t op) hk1 hb1 hm2
      constructor
      · intro s s2 h1 h2
        simp only [applyOps] at h2
        cases hmid : lookupSession (applyOp p op).activeSessions sid with
        | some smid =>
            have step := applyOp_lookup_mono p op t hk hb ha h1 hmid
            exact le_trans step (ihx.1 smid s2 hmid h2)
        | none =>
            have hts : s.lastActivity ≤ t := hb _ (mem_of_lookupSession h1)
            have htail := ihx.2 s2 hmid h2
            exact le_trans hts (le_trans (le_opEnd ha) htail)
      · intro s2 h0 h2
        simp only [applyOps] at h2
        cases hmid : lookupSession (applyOp p op).activeSessions sid with
        | some smid =>
            have hnew := applyOp_lookup_new p op t ha h0 hmid
            exact le_trans hnew (ihx.1 smid s2 hmid h2)
        | none =>
            exact le_trans (le_opEnd ha) (ihx.2 s2 hmid h2)

/-- C8: over any operation sequence run at non-decreasing wall-clock
times, a session's `lastActivity` never decreases; and every page/action
operation that touches a session — `getSession`, `getPage`, `createPage`,
`closePage`, and the underlying `addPage`/`removePage` — refreshes its
`lastActivity` to the operation's current time. -/
theorem lastActivity_monotone_and_refreshed :
    (∀ (p : BrowserPool) (t : Nat) (ops : List PoolOp) (sid : Nat)
        (s s2 : BrowserSession),
        KeysOk p → ActivityBound p t → TimesMono t ops →
        lookupSession p.activeSessions sid = some s →
        lookupSession (applyOps p ops).activeSessions sid = some s2 →
        s.lastActivity ≤ s2.lastActivity)
    ∧ (∀ (p : BrowserPool) (sid now : Nat) (s : BrowserSession),
        lookupSession p.activeSessions sid = some s →
        lookupSession (p.getSession sid now).pool.activeSessions sid
          = some { s with lastActivity := now })
    ∧ (∀ (p : BrowserPool) (sid pid now : Nat) (s : BrowserSession),
        lookupSession p.activeSessions sid = some s →
        lookupSession (p.getPage sid pid now).pool.activeSessions sid
          = some { s with lastActivity := now })
    ∧ (∀ (p : BrowserPool) (sid : Nat) (url : Option String) (now : Nat)
        (navOk : Bool) (s : BrowserSession),
        lookupSession p.activeSessions sid = some s →
        ∃ s2, lookupSession (p.createPage sid url now navOk).pool.activeSessions sid
            = some s2 ∧ s2.lastActivity = now)
    ∧ (∀ (p : BrowserPool) (sid pid now : Nat) (pageCloseFails : Bool)
        (s : BrowserSession),
        lookupSession p.activeSessions sid = some s →
        ∃ s2, lookupSession
            (p.closePage sid pid now pageCloseFails).pool.activeSessions sid
            = some s2 ∧ s2.lastActivity = now)
    ∧ (∀ (s : BrowserSession) (pid now : Nat), (s.addPage pid now).lastActivity = now)
    ∧ (∀ (s : BrowserSession) (pid now : Nat), (s.removePage pid now).2 = true →
        ((s.removePage pid now).1).lastActivity = now) := by
  refine ⟨?_, ?_, ?_, ?_, ?_, ?_, ?_⟩
  · intro p t ops sid s s2 hk hb hm h1 h2
    exact (applyOps_mono_aux ops p t hk hb hm sid).1 s s2 h1 h2
  · intro p sid now s h
    rw [getSession_of_some p sid now h]
    simp only
    exact lookupSession_update_self h _
  · intro p sid pid now s h
    rw [getPage_pool]
    rw [getSession_of_some p sid now h]
    simp only
    exact lookupSession_update_self h _
  · intro p sid url now navOk s h
    rw [createPage_pool_of_some p sid url now navOk h]
    simp only
    exact ⟨_, lookupSession_update_self h _, rfl⟩
  · intro p sid pid now pageCloseFails s h
    simp only [BrowserPool.closePage]
    rw [getSession_of_some p sid now h]
    simp only
    by_cases hp : BrowserSession.hasPage { s with lastActivity := now } pid
    · by_cases hfail : pageCloseFails
      · simp only [hp, hfail, if_true]
        exact ⟨_, lookupSession_update_self h _, rfl⟩
      · simp only [hp, hfail, Bool.false_eq_true, if_true, if_false]
        rw [updateSession_updateSession]
        refine ⟨_, lookupSession_update_self h _, ?_⟩
        simp only [BrowserSession.removePage]
        split <;> rfl
    · simp only [hp, Bool.false_eq_true, if_false]
      exact ⟨_, lookupSession_update_self h _, rfl⟩
  · intro s pid now
    rfl
  · intro s pid now h
    simp only [BrowserSession.removePage] at h ⊢
    split at h
    · simp_all [BrowserSession.removePage]
    · cases h

/-- Concrete instantiation: in `demoFullPool` (one session, id 1, created
at time 5) a `getSession` at time 9 leaves `lastActivity` non-decreasing
across the sequence and refreshes it to 9. -/
theorem lastActivity_monotone_witness :
    demoSession0.lastActivity
        ≤ (BrowserSession.mk 1 0 5 9 [] []).lastActivity
    ∧ lookupSession (demoFullPool.getSession 1 9).pool.activeSessions 1
        = some { demoSession0 with lastActivity := 9 } := by
  have h := lastActivity_monotone_and_refreshed
  constructor
  · exact h.1 demoFullPool 5 [PoolOp.getSessionOp 1 9] 1 demoSession0
      (BrowserSession.mk 1 0 5 9 [] []) (by constructor <;> decide)
      (show ∀ e ∈ demoFullPool.activeSessions, e.2.lastActivity ≤ 5 by decide)
      (show (5 ≤ 9 : Prop) ∧ True from ⟨by decide, trivial⟩) (by decide) (by decide)
  · exact h.2.1 demoFullPool 1 9 demoSession0 (by decide)
